import Mathlib

/-!
Verification of the jira-issues-importer pipeline.

This file gives a shallow embedding, in Lean 4, of the parts of the
importer that the specification talks about:

* `utils.py`: `convert_label`, `_map_label`, `_is_label_approved`,
  `proper_label_str`;
* `labelcolourselector.py`: `LabelColourSelector.get_colour`;
* `importer.py`: `Importer.upload_github_issue` (internal-field stripping
  and the dry-run/live document construction),
  `Importer.wait_for_issue_creation` (the polling loop),
  `Importer.import_labels`, `Importer._find_jira_links` and the
  cross-reference post-pass of `Importer.import_issues`;
* `project.py`: the label pipeline and the hidden-reference block of
  `Project._append_item_to_project`, `Project._add_labels`,
  `Project._htmlentitydecode`, `Project._clean_html`, and
  `Project._replace_jira_urls_with_redirection_service`.

Python strings are modelled as `List Char` (named `Str` below); Python
`None` flowing through a string-typed variable is modelled with `Option`.
Python dictionaries whose use is key-membership / insertion-order
traversal are modelled as association lists.  Where CPython raises an
exception that the importer does not catch (`AttributeError`,
`UnboundLocalError`), the embedded function returns an `Except`/error
value describing that exception.
-/

namespace JiraImport

/-- Python strings are modelled as lists of characters. -/
abbrev Str := List Char

/-! ## utils.py: label conversion -/

/-- Embedding of `utils._map_label`:
`return labels_mapping[label] if label in labels_mapping else label`.
The mapping dictionary is an association list looked up by first match
(a Python dict has unique keys, so first-match lookup agrees with it).
A Python `None` argument is not a key of the (string-keyed) dictionary,
so it is returned unchanged. -/
def _map_label (label : Option Str) (labels_mapping : List (Str × Str)) : Option Str :=
  match label with
  | none => none
  | some l =>
    match labels_mapping.lookup l with
    | some v => some v
    | none => some l

/-- Embedding of `utils._is_label_approved`: `label in approved_labels`.
Python `None` is never an element of a list of strings. -/
def _is_label_approved (label : Option Str) (approved_labels : List Str) : Bool :=
  match label with
  | none => false
  | some l => approved_labels.contains l

/-- Embedding of `utils.convert_label`: map the label through the renaming
table, keep it only when the mapped name is on the allow-list, and return
`None` otherwise. -/
def convert_label (label : Option Str) (labels_mappings : List (Str × Str))
    (approved_labels : List Str) : Option Str :=
  let mapped_label := _map_label label labels_mappings
  if _is_label_approved mapped_label approved_labels then mapped_label else none

/-- Embedding of `utils.proper_label_str`:
`label.lower().strip().replace(' ', '-').replace("'", '')`. -/
def proper_label_str (label : Str) : Str :=
  let lowered := label.map Char.toLower
  let stripped := ((lowered.dropWhile Char.isWhitespace).reverse.dropWhile
      Char.isWhitespace).reverse
  (stripped.map (fun c => if c = ' ' then '-' else c)).filter
    (fun c => c ≠ Char.ofNat 39)

/-! ## labelcolourselector.py -/

/-- Embedding of `LabelColourSelector.get_colour`.  The source reads

    if label == 'jira-type:epic': return 'ddf4dd'
    elif label.startwith('jira-type:'): return '7bc043'
    elif label == 'bug': return 'ee4035'
    else: return 'ededed'

Python `str` has no attribute `startwith` (the method is `startswith`),
so every call that reaches the second branch raises `AttributeError`.
Only the label `'jira-type:epic'` returns normally. -/
def get_colour (label : Str) : Except Str Str :=
  if label = "jira-type:epic".toList then .ok "ddf4dd".toList
  else .error "AttributeError: str has no attribute startwith".toList

/-! ## importer.py: upload_github_issue -/

/-- Tests whether a Python string starts with an underscore,
as in `key.startswith('_')`. -/
def startsWithUnderscore (k : Str) : Bool :=
  match k with
  | [] => false
  | c :: _ => c = '_'

/-- Embedding of the stripping loop of `Importer.upload_github_issue`:

    for key in list(issue):
        if key.startswith('_'):
            issue.pop(key)

The issue dictionary is an insertion-ordered association list; popping all
underscore-prefixed keys leaves exactly the filtered list, in order. -/
def stripInternalFields {V : Type} (issue : List (Str × V)) : List (Str × V) :=
  issue.filter (fun kv => !(startsWithUnderscore kv.1))

/-- The document `issue_data = ('issue': issue, 'comments': comments)`
built by `Importer.upload_github_issue` before the dry-run/live branch. -/
structure IssueDoc (V : Type) where
  issue : List (Str × V)
  comments : List (List (Str × V))
deriving DecidableEq

/-- The transport boundary: where the constructed document goes. -/
inductive Transport where
  | postedToTarget (url : Str)
  | savedToLocalFile (filename : Str)
deriving DecidableEq

/-- Result of one call to `Importer.upload_github_issue`: the constructed
document plus the transport it was handed to. -/
structure UploadResult (V : Type) where
  doc : IssueDoc V
  transport : Transport

/-- Embedding of `Importer.upload_github_issue`.  The function first strips
every `_`-prefixed key from the issue, then builds
`issue_data = ('issue': issue, 'comments': comments)`, and only then
branches: in dry-run mode the document is serialized to
`dry-run/<jira_key>.json`; in live mode the same `issue_data` is the JSON
body of the POST to the import endpoint. -/
def upload_github_issue {V : Type} (dry_run : Bool) (issue_url : Str)
    (jira_key : Str) (issue : List (Str × V))
    (comments : List (List (Str × V))) : UploadResult V :=
  let strippedIssue := stripInternalFields issue
  let issue_data : IssueDoc V := ⟨strippedIssue, comments⟩
  if dry_run then
    ⟨issue_data, .savedToLocalFile ("dry-run/".toList ++ jira_key ++ ".json".toList)⟩
  else
    ⟨issue_data, .postedToTarget issue_url⟩

/-! ## importer.py: wait_for_issue_creation -/

/-- One status-check HTTP response, with the JSON fields the loop reads. -/
structure PollResp where
  status_code : Nat
  status : Str
  issue_url : Str
  errors : Str
deriving DecidableEq

/-- The possible ways `Importer.wait_for_issue_creation` ends. -/
inductive PollOutcome where
  | imported (r : PollResp)
  | failedWith (errors : Str)
  | fatalHttp (code : Nat)
  | unexpectedStatus (s : Str)
deriving DecidableEq

/-- Embedding of the polling loop of `Importer.wait_for_issue_creation`
(live path).  The sequence of status-check responses the target would
return is supplied as a list; `none` means the loop was still polling
when the supplied responses ran out (the real loop blocks forever).

    while True:
        time.sleep(3)
        response = requests.get(status_url, ...)
        if response.status_code == 404: continue
        elif response.status_code != 200: raise RuntimeError(...)
        status = response.json()['status']
        if status != 'pending': break
    if status == 'imported': ...return response
    elif status == 'failed': raise RuntimeError(errors)
    else: raise RuntimeError(unexpected status)
-/
def wait_for_issue_creation : List PollResp → Option PollOutcome
  | [] => none
  | r :: rest =>
    if r.status_code = 404 then wait_for_issue_creation rest
    else if r.status_code ≠ 200 then some (.fatalHttp r.status_code)
    else if r.status = "pending".toList then wait_for_issue_creation rest
    else if r.status = "imported".toList then some (.imported r)
    else if r.status = "failed".toList then some (.failedWith r.errors)
    else some (.unexpectedStatus r.status)

/-! ## Generic left-to-right scanners

The importer uses `re.sub`, `re.findall` and `str.replace`.  All of them
walk the subject left to right, take the leftmost (non-overlapping) match
at each step, and continue after the consumed text.  They are embedded
with a fuel-indexed structural recursion so that every function stays
kernel-computable; the fuel is always instantiated with the length of the
subject, which suffices because each step consumes at least one character
(a `tm` result `(out, k)` means: the scanner found a match consuming
`k + 1` characters and contributing `out` to the output / result list). -/

/-- Substitution scanner: rebuild the subject, replacing each leftmost
match (as reported by `tm` on the current suffix) by its `out`. -/
def subScanF (tm : Str → Option (Str × Nat)) : Nat → Str → Str
  | _, [] => []
  | 0, s => s
  | fuel + 1, c :: rest =>
    match tm (c :: rest) with
    | none => c :: subScanF tm fuel rest
    | some (out, k) => out ++ subScanF tm fuel (rest.drop k)

/-- Run a substitution scanner with enough fuel for the whole subject. -/
def subScan (tm : Str → Option (Str × Nat)) (s : Str) : Str :=
  subScanF tm s.length s

/-- Substitution scanner with left context, for patterns with lookbehind.
`pre` is the already-scanned original text, most recent character first;
lookbehind assertions inspect it. -/
def subScanPreF (tm : Str → Str → Option (Str × Nat)) :
    Nat → Str → Str → Str
  | _, _, [] => []
  | 0, _, s => s
  | fuel + 1, pre, c :: rest =>
    match tm pre (c :: rest) with
    | none => c :: subScanPreF tm fuel (c :: pre) rest
    | some (out, k) =>
      out ++ subScanPreF tm fuel ((c :: rest.take k).reverse ++ pre) (rest.drop k)

/-- Run a lookbehind-aware substitution scanner with enough fuel. -/
def subScanPre (tm : Str → Str → Option (Str × Nat)) (s : Str) : Str :=
  subScanPreF tm s.length [] s

/-- Findall scanner: collect the captures of the leftmost non-overlapping
matches, in order. -/
def findScanF (tm : Str → Option (Str × Nat)) : Nat → Str → List Str
  | _, [] => []
  | 0, _ => []
  | fuel + 1, c :: rest =>
    match tm (c :: rest) with
    | none => findScanF tm fuel rest
    | some (cap, k) => cap :: findScanF tm fuel (rest.drop k)

/-- Run a findall scanner with enough fuel for the whole subject. -/
def findScan (tm : Str → Option (Str × Nat)) (s : Str) : List Str :=
  findScanF tm s.length s

/-- Findall scanner with left context for lookbehind assertions. -/
def findScanPreF (tm : Str → Str → Option (Str × Nat)) :
    Nat → Str → Str → List Str
  | _, _, [] => []
  | 0, _, _ => []
  | fuel + 1, pre, c :: rest =>
    match tm pre (c :: rest) with
    | none => findScanPreF tm fuel (c :: pre) rest
    | some (cap, k) =>
      cap :: findScanPreF tm fuel ((c :: rest.take k).reverse ++ pre) (rest.drop k)

/-- Run a lookbehind-aware findall scanner with enough fuel. -/
def findScanPre (tm : Str → Str → Option (Str × Nat)) (s : Str) : List Str :=
  findScanPreF tm s.length [] s

/-- Match step for `str.replace(pat, rep)`: an occurrence of the literal
`pat` at the current position is replaced by `rep`. -/
def tryReplace (pat rep : Str) (t : Str) : Option (Str × Nat) :=
  if pat ≠ [] ∧ pat.isPrefixOf t then some (rep, pat.length - 1) else none

/-- Embedding of Python `s.replace(pat, rep)` (all non-overlapping
occurrences, left to right). -/
def pyReplace (pat rep : Str) (s : Str) : Str :=
  subScan (tryReplace pat rep) s

/-- Does the literal `pat` occur anywhere in `s`?  Used to state the
no-match hypotheses of the content-rewriting theorems. -/
def containsSub (pat : Str) : Str → Bool
  | [] => pat.isEmpty
  | c :: rest => pat.isPrefixOf (c :: rest) || containsSub pat rest

/-! ## project.py: _htmlentitydecode and _clean_html -/

/-- A run of eight spaces, deleted by `_htmlentitydecode` via
`s.replace(' ' * 8, '')`. -/
def eightSpaces : Str := "        ".toList

/-- First entry of the entity table whose name, followed by a semicolon,
starts the given text; mirrors the regex alternation
`&(name1|name2|...);` which tries the alternatives in table order. -/
def firstEntityMatch (table : List (Str × Nat)) (rest : Str) : Option (Str × Nat) :=
  table.findSome? (fun nc =>
    if (nc.1 ++ [';']).isPrefixOf rest then some ([Char.ofNat nc.2], nc.1.length + 1)
    else none)

/-- Match step for the entity-decoding `re.sub`: at an ampersand, the
first table name followed by `;` is replaced by its code point. -/
def tryEntity (table : List (Str × Nat)) (t : Str) : Option (Str × Nat) :=
  match t with
  | [] => none
  | c :: rest =>
    if c = '&' then firstEntityMatch table rest
    else none

end JiraImport

namespace JiraImport


/-- The stdlib table html.entities.name2codepoint used by Project._htmlentitydecode,
in its dictionary iteration order (the regex alternation order). -/
def name2codepoint : List (Str × Nat) := [
  ("AElig".toList, 198),
  ("Aacute".toList, 193),
  ("Acirc".toList, 194),
  ("Agrave".toList, 192),
  ("Alpha".toList, 913),
  ("Aring".toList, 197),
  ("Atilde".toList, 195),
  ("Auml".toList, 196),
  ("Beta".toList, 914),
  ("Ccedil".toList, 199),
  ("Chi".toList, 935),
  ("Dagger".toList, 8225),
  ("Delta".toList, 916),
  ("ETH".toList, 208),
  ("Eacute".toList, 201),
  ("Ecirc".toList, 202),
  ("Egrave".toList, 200),
  ("Epsilon".toList, 917),
  ("Eta".toList, 919),
  ("Euml".toList, 203),
  ("Gamma".toList, 915),
  ("Iacute".toList, 205),
  ("Icirc".toList, 206),
  ("Igrave".toList, 204),
  ("Iota".toList, 921),
  ("Iuml".toList, 207),
  ("Kappa".toList, 922),
  ("Lambda".toList, 923),
  ("Mu".toList, 924),
  ("Ntilde".toList, 209),
  ("Nu".toList, 925),
  ("OElig".toList, 338),
  ("Oacute".toList, 211),
  ("Ocirc".toList, 212),
  ("Ograve".toList, 210),
  ("Omega".toList, 937),
  ("Omicron".toList, 927),
  ("Oslash".toList, 216),
  ("Otilde".toList, 213),
  ("Ouml".toList, 214),
  ("Phi".toList, 934),
  ("Pi".toList, 928),
  ("Prime".toList, 8243),
  ("Psi".toList, 936),
  ("Rho".toList, 929),
  ("Scaron".toList, 352),
  ("Sigma".toList, 931),
  ("THORN".toList, 222),
  ("Tau".toList, 932),
  ("Theta".toList, 920),
  ("Uacute".toList, 218),
  ("Ucirc".toList, 219),
  ("Ugrave".toList, 217),
  ("Upsilon".toList, 933),
  ("Uuml".toList, 220),
  ("Xi".toList, 926),
  ("Yacute".toList, 221),
  ("Yuml".toList, 376),
  ("Zeta".toList, 918),
  ("aacute".toList, 225),
  ("acirc".toList, 226),
  ("acute".toList, 180),
  ("aelig".toList, 230),
  ("agrave".toList, 224),
  ("alefsym".toList, 8501),
  ("alpha".toList, 945),
  ("amp".toList, 38),
  ("and".toList, 8743),
  ("ang".toList, 8736),
  ("aring".toList, 229),
  ("asymp".toList, 8776),
  ("atilde".toList, 227),
  ("auml".toList, 228),
  ("bdquo".toList, 8222),
  ("beta".toList, 946),
  ("brvbar".toList, 166),
  ("bull".toList, 8226),
  ("cap".toList, 8745),
  ("ccedil".toList, 231),
  ("cedil".toList, 184),
  ("cent".toList, 162),
  ("chi".toList, 967),
  ("circ".toList, 710),
  ("clubs".toList, 9827),
  ("cong".toList, 8773),
  ("copy".toList, 169),
  ("crarr".toList, 8629),
  ("cup".toList, 8746),
  ("curren".toList, 164),
  ("dArr".toList, 8659),
  ("dagger".toList, 8224),
  ("darr".toList, 8595),
  ("deg".toList, 176),
  ("delta".toList, 948),
  ("diams".toList, 9830),
  ("divide".toList, 247),
  ("eacute".toList, 233),
  ("ecirc".toList, 234),
  ("egrave".toList, 232),
  ("empty".toList, 8709),
  ("emsp".toList, 8195),
  ("ensp".toList, 8194),
  ("epsilon".toList, 949),
  ("equiv".toList, 8801),
  ("eta".toList, 951),
  ("eth".toList, 240),
  ("euml".toList, 235),
  ("euro".toList, 8364),
  ("exist".toList, 8707),
  ("fnof".toList, 402),
  ("forall".toList, 8704),
  ("frac12".toList, 189),
  ("frac14".toList, 188),
  ("frac34".toList, 190),
  ("frasl".toList, 8260),
  ("gamma".toList, 947),
  ("ge".toList, 8805),
  ("gt".toList, 62),
  ("hArr".toList, 8660),
  ("harr".toList, 8596),
  ("hearts".toList, 9829),
  ("hellip".toList, 8230),
  ("iacute".toList, 237),
  ("icirc".toList, 238),
  ("iexcl".toList, 161),
  ("igrave".toList, 236),
  ("image".toList, 8465),
  ("infin".toList, 8734),
  ("int".toList, 8747),
  ("iota".toList, 953),
  ("iquest".toList, 191),
  ("isin".toList, 8712),
  ("iuml".toList, 239),
  ("kappa".toList, 954),
  ("lArr".toList, 8656),
  ("lambda".toList, 955),
  ("lang".toList, 9001),
  ("laquo".toList, 171),
  ("larr".toList, 8592),
  ("lceil".toList, 8968),
  ("ldquo".toList, 8220),
  ("le".toList, 8804),
  ("lfloor".toList, 8970),
  ("lowast".toList, 8727),
  ("loz".toList, 9674),
  ("lrm".toList, 8206),
  ("lsaquo".toList, 8249),
  ("lsquo".toList, 8216),
  ("lt".toList, 60),
  ("macr".toList, 175),
  ("mdash".toList, 8212),
  ("micro".toList, 181),
  ("middot".toList, 183),
  ("minus".toList, 8722),
  ("mu".toList, 956),
  ("nabla".toList, 8711),
  ("nbsp".toList, 160),
  ("ndash".toList, 8211),
  ("ne".toList, 8800),
  ("ni".toList, 8715),
  ("not".toList, 172),
  ("notin".toList, 8713),
  ("nsub".toList, 8836),
  ("ntilde".toList, 241),
  ("nu".toList, 957),
  ("oacute".toList, 243),
  ("ocirc".toList, 244),
  ("oelig".toList, 339),
  ("ograve".toList, 242),
  ("oline".toList, 8254),
  ("omega".toList, 969),
  ("omicron".toList, 959),
  ("oplus".toList, 8853),
  ("or".toList, 8744),
  ("ordf".toList, 170),
  ("ordm".toList, 186),
  ("oslash".toList, 248),
  ("otilde".toList, 245),
  ("otimes".toList, 8855),
  ("ouml".toList, 246),
  ("para".toList, 182),
  ("part".toList, 8706),
  ("permil".toList, 8240),
  ("perp".toList, 8869),
  ("phi".toList, 966),
  ("pi".toList, 960),
  ("piv".toList, 982),
  ("plusmn".toList, 177),
  ("pound".toList, 163),
  ("prime".toList, 8242),
  ("prod".toList, 8719),
  ("prop".toList, 8733),
  ("psi".toList, 968),
  ("quot".toList, 34),
  ("rArr".toList, 8658),
  ("radic".toList, 8730),
  ("rang".toList, 9002),
  ("raquo".toList, 187),
  ("rarr".toList, 8594),
  ("rceil".toList, 8969),
  ("rdquo".toList, 8221),
  ("real".toList, 8476),
  ("reg".toList, 174),
  ("rfloor".toList, 8971),
  ("rho".toList, 961),
  ("rlm".toList, 8207),
  ("rsaquo".toList, 8250),
  ("rsquo".toList, 8217),
  ("sbquo".toList, 8218),
  ("scaron".toList, 353),
  ("sdot".toList, 8901),
  ("sect".toList, 167),
  ("shy".toList, 173),
  ("sigma".toList, 963),
  ("sigmaf".toList, 962),
  ("sim".toList, 8764),
  ("spades".toList, 9824),
  ("sub".toList, 8834),
  ("sube".toList, 8838),
  ("sum".toList, 8721),
  ("sup".toList, 8835),
  ("sup1".toList, 185),
  ("sup2".toList, 178),
  ("sup3".toList, 179),
  ("supe".toList, 8839),
  ("szlig".toList, 223),
  ("tau".toList, 964),
  ("there4".toList, 8756),
  ("theta".toList, 952),
  ("thetasym".toList, 977),
  ("thinsp".toList, 8201),
  ("thorn".toList, 254),
  ("tilde".toList, 732),
  ("times".toList, 215),
  ("trade".toList, 8482),
  ("uArr".toList, 8657),
  ("uacute".toList, 250),
  ("uarr".toList, 8593),
  ("ucirc".toList, 251),
  ("ugrave".toList, 249),
  ("uml".toList, 168),
  ("upsih".toList, 978),
  ("upsilon".toList, 965),
  ("uuml".toList, 252),
  ("weierp".toList, 8472),
  ("xi".toList, 958),
  ("yacute".toList, 253),
  ("yen".toList, 165),
  ("yuml".toList, 255),
  ("zeta".toList, 950),
  ("zwj".toList, 8205),
  ("zwnj".toList, 8204)]

/-- Embedding of `Project._htmlentitydecode` (for a non-`None` argument):
`s.replace(' ' * 8, '')` followed by the entity-decoding `re.sub` over the
alternation of all `name2codepoint` names. -/
def _htmlentitydecode (s : Str) : Str :=
  subScan (tryEntity name2codepoint) (pyReplace eightSpaces [] s)

/-- Find the first occurrence of the literal `pat`; return the text before
it and the text after it.  This is how a lazy group `(.*?)` directly
followed by the literal `pat` matches (shortest capture). -/
def splitAtFirst (pat : Str) : Str → Option (Str × Str)
  | [] => if pat.isEmpty then some ([], []) else none
  | c :: rest =>
    if pat.isPrefixOf (c :: rest) then some ([], (c :: rest).drop pat.length)
    else
      match splitAtFirst pat rest with
      | some p => some (c :: p.1, p.2)
      | none => none

/-- Match `(.*?)\s*pat` lazily: the shortest capture after which (a
maximal whitespace run and then) the literal `pat` follows.  Since `pat`
starts with a non-whitespace character here, the greedy-then-backtracking
`\s*` of the Python engine can only consume the whole whitespace run.
Returns the capture and the total number of characters consumed. -/
def matchLazyWsClose (pat : Str) : Str → Option (Str × Nat)
  | [] => if pat.isEmpty then some ([], 0) else none
  | c :: rest =>
    let ws := (c :: rest).takeWhile Char.isWhitespace
    let r := (c :: rest).drop ws.length
    if pat.isPrefixOf r then some ([], ws.length + pat.length)
    else
      match matchLazyWsClose pat rest with
      | some p => some (c :: p.1, p.2 + 1)
      | none => none

/-- Opening literal of the Jira `code` block markup handled by
`Project._clean_html`. -/
def codeOpen : Str :=
  ("<div class=\"code panel\" style=\"border-width: 1px;\">"
    ++ "<div class=\"codeContent panelContent\">\n<pre class=\"code-").toList

/-- Closing literal `</pre>\n</div></div>` shared by the code and
no-format patterns. -/
def preClose : Str := "</pre>\n</div></div>".toList

/-- Match step for the `code` block rewrite of `Project._clean_html`:

    re.sub(r'<div class="code panel" ...><div class="codeContent panelContent">\n<pre class="code-[^"]*">(.*?)</pre>\n</div></div>',
           r'\n<pre>\n\1</pre>', s, flags=re.DOTALL)

The `[^\"]*` class is greedy over non-quote characters and must be
followed by `\">`; the lazy group captures up to the first `preClose`. -/
def tryCodeBlock (t : Str) : Option (Str × Nat) :=
  if codeOpen.isPrefixOf t then
    let r1 := t.drop codeOpen.length
    let cls := r1.takeWhile (fun c => c ≠ '"')
    let r2 := r1.drop cls.length
    if "\">".toList.isPrefixOf r2 then
      match splitAtFirst preClose (r2.drop 2) with
      | some (g1, _) =>
        some ("\n<pre>\n".toList ++ g1 ++ "</pre>".toList,
          codeOpen.length + cls.length + 2 + g1.length + preClose.length - 1)
      | none => none
    else none
  else none

/-- Opening literal of the Jira `noformat` block markup. -/
def noformatOpen : Str :=
  ("<div class=\"preformatted panel\" style=\"border-width: 1px;\">"
    ++ "<div class=\"preformattedContent panelContent\">\n<pre>").toList

/-- Match step for the `noformat` rewrite of `Project._clean_html`:
opening literal, then a lazy capture up to the first `preClose`; the
replacement wraps the capture in a fenced code block. -/
def tryNoformatBlock (t : Str) : Option (Str × Nat) :=
  if noformatOpen.isPrefixOf t then
    match splitAtFirst preClose (t.drop noformatOpen.length) with
    | some (g1, _) =>
      some ("\n\n```\n".toList ++ g1 ++ "\n```".toList,
        noformatOpen.length + g1.length + preClose.length - 1)
    | none => none
  else none

/-- Opening literal shared by both panel patterns. -/
def panelOpen : Str := "<div class=\"panel\" style=\"border-width: 1px;\">".toList

/-- Header-opening literal of the titled-panel pattern. -/
def panelHeaderOpen : Str :=
  "<div class=\"panelHeader\" style=\"border-bottom-width: 1px;\"><b>".toList

/-- Literal between the title capture and the content of a titled panel. -/
def panelHeaderClose : Str := "</b></div><div class=\"panelContent\">".toList

/-- Content-opening literal of the untitled-panel pattern. -/
def panelContentOpen : Str := "<div class=\"panelContent\">".toList

/-- Closing literal `</div></div>` of both panel patterns. -/
def divDivClose : Str := "</div></div>".toList

/-- Match step for the titled-panel rewrite of `Project._clean_html`. -/
def tryPanelTitled (t : Str) : Option (Str × Nat) :=
  if panelOpen.isPrefixOf t then
    let r1 := t.drop panelOpen.length
    if panelHeaderOpen.isPrefixOf r1 then
      match splitAtFirst panelHeaderClose (r1.drop panelHeaderOpen.length) with
      | some (g1, r3) =>
        let ws1 := r3.takeWhile Char.isWhitespace
        match matchLazyWsClose divDivClose (r3.drop ws1.length) with
        | some (g2, consumed3) =>
          some ("\n\n<table><tr><td><b>".toList ++ g1
              ++ "</b></td></tr><tr><td>".toList ++ g2
              ++ "</td></tr></table>\n".toList,
            panelOpen.length + panelHeaderOpen.length + g1.length
              + panelHeaderClose.length + ws1.length + consumed3 - 1)
        | none => none
      | none => none
    else none
  else none

/-- Match step for the untitled-panel rewrite of `Project._clean_html`. -/
def tryPanelUntitled (t : Str) : Option (Str × Nat) :=
  if panelOpen.isPrefixOf t then
    let r1 := t.drop panelOpen.length
    if panelContentOpen.isPrefixOf r1 then
      let r2 := r1.drop panelContentOpen.length
      let ws1 := r2.takeWhile Char.isWhitespace
      match matchLazyWsClose divDivClose (r2.drop ws1.length) with
      | some (g2, consumed3) =>
        some ("\n\n<table><tr><td>".toList ++ g2 ++ "</td></tr></table>\n".toList,
          panelOpen.length + panelContentOpen.length + ws1.length + consumed3 - 1)
      | none => none
    else none
  else none

/-- Characters allowed in the mention pattern class `[A-Za-z0-9._-]`. -/
def isMentionChar (c : Char) : Bool :=
  (('A' ≤ c && c ≤ 'Z') || ('a' ≤ c && c ≤ 'z') || c.isDigit
    || c = '.' || c = '_' || c = '-')

/-- Match step for the mention-escaping rewrite of `Project._clean_html`:

    s = re.sub(r'@([A-Za-z0-9._-]+)', '@\u200B\1', s)

A zero-width space is inserted after each at-sign that starts a mention
token. -/
def tryMention (t : Str) : Option (Str × Nat) :=
  match t with
  | [] => none
  | c :: rest =>
    if c = '@' then
      let run := rest.takeWhile isMentionChar
      if run.isEmpty then none
      else some ('@' :: Char.ofNat 8203 :: run, run.length)
    else none

/-- Embedding of the mention-escaping pass alone. -/
def mentionEscape (s : Str) : Str := subScan tryMention s

/-- Embedding of `Project._clean_html` for a non-`None` argument: entity
decoding, then the four block rewrites in source order, then mention
escaping. -/
def _clean_html (s : Str) : Str :=
  let s1 := _htmlentitydecode s
  let s2 := subScan tryCodeBlock s1
  let s3 := subScan tryNoformatBlock s2
  let s4 := subScan tryPanelTitled s3
  let s5 := subScan tryPanelUntitled s4
  subScan tryMention s5

/-! ## importer.py: import_labels -/

/-- Uncaught CPython exceptions that the importer can raise. -/
inductive PyErr where
  | unboundLocal (name : Str)
  | attributeError (msg : Str)
deriving DecidableEq

/-- What `Importer.import_labels` reports for one label: the success print
`lkey -> prefixed_lkey`, or the failure print with the response code. -/
inductive LabelEvent where
  | success (lkey prefixed : Str)
  | failure (prefixed : Str) (code : Nat)
deriving DecidableEq

/-- Embedding of the per-label loop of `Importer.import_labels`.

    for lkey in self.project.get_all_labels().keys():
        prefixed_lkey = lkey.lower()
        if os.getenv('JIRA_MIGRATION_INCLUDE_COMPONENT_IN_LABELS', 'true') == 'true':
            if lkey in self.project.get_components().keys():
                prefixed_lkey = 'jira-component:' + prefixed_lkey
        prefixed_lkey = convert_label(prefixed_lkey, ...)
        if prefixed_lkey is None: continue
        data = ('name': prefixed_lkey, 'color': colour_selector.get_colour(lkey))
        if not self.project.config.dry_run:
            r = requests.post(label_url, json=data, ...)
        if r.status_code == 201 or self.project.config.dry_run: ...success print
        else: ...failure print

The local variable `r` is modelled as `Option Nat` (its status code):
it stays unassigned (`none`) in dry-run mode, and reading
`r.status_code` then raises `UnboundLocalError`.  The colour lookup
`get_colour(lkey)` can itself raise `AttributeError` (see `get_colour`).
`respOf` gives the status code the target answers for a posted label.
The result is the list of per-label reports together with the exception
that aborted the loop, if any. -/
def import_labels (dry_run includeComponent : Bool) (components : List Str)
    (labels_mapping : List (Str × Str)) (approved_labels : List Str)
    (respOf : Str → Nat) : List Str → List LabelEvent × Option PyErr
  | [] => ([], none)
  | lkey :: rest =>
    let pl0 := lkey.map Char.toLower
    let pl1 := if includeComponent && components.contains lkey then
        "jira-component:".toList ++ pl0
      else pl0
    match convert_label (some pl1) labels_mapping approved_labels with
    | none =>
      import_labels dry_run includeComponent components labels_mapping
        approved_labels respOf rest
    | some prefixed =>
      match get_colour lkey with
      | .error e => ([], some (.attributeError e))
      | .ok _colour =>
        let r : Option Nat := if dry_run then none else some (respOf prefixed)
        match r with
        | none => ([], some (.unboundLocal "r".toList))
        | some code =>
          let tail := import_labels dry_run includeComponent components
            labels_mapping approved_labels respOf rest
          if code = 201 || dry_run then (.success lkey prefixed :: tail.1, tail.2)
          else (.failure prefixed code :: tail.1, tail.2)

/-! ## project.py: the label pipeline of _append_item_to_project -/

/-- Embedding of `Project._jira_type_mapping`; an unknown type falls
through all branches and returns Python `None`. -/
def _jira_type_mapping (issue_type : Str) : Option Str :=
  if issue_type = "bug".toList then some "bug".toList
  else if issue_type = "improvement".toList then some "enhancement".toList
  else if issue_type = "new feature".toList then some "enhancement".toList
  else if issue_type = "task".toList then some "jira-type:task".toList
  else if issue_type = "story".toList then some "jira-type:story".toList
  else if issue_type = "patch".toList then some "jira-type:patch".toList
  else if issue_type = "epic".toList then some "jira-type:epic".toList
  else none

/-- The label-bearing fields of one raw exported item, as read by
`Project._append_item_to_project`. -/
structure RawItem where
  components : List Str
  itemType : Str
  sourceLabels : List Str
  priority : Option Str
  resolution : Option Str
deriving DecidableEq

/-- The raw label list gathered by lines 139-151 of
`Project._append_item_to_project`, in append order, before the
`list(filter(None, set(labels)))` step: the sentinel label, the prefixed
components (when the environment toggle is on), the type-derived label
(possibly Python `None`), and the converted source labels (only appended
when the conversion result is not `None`, truncated to 50 characters). -/
def gatheredLabels (includeComponent : Bool) (labels_mapping : List (Str × Str))
    (approved_labels : List Str) (it : RawItem) : List (Option Str) :=
  [some "imported-jira-issue".toList]
    ++ (if includeComponent then
          it.components.map
            (fun c => some ("component:".toList ++ proper_label_str (c.take 40)))
        else [])
    ++ [_jira_type_mapping (it.itemType.map Char.toLower)]
    ++ (it.sourceLabels.filterMap
          (fun l => convert_label (some (proper_label_str l)) labels_mapping
            approved_labels)).map (fun cl => some (cl.take 50))

/-- Embedding of `labels = list(filter(None, set(labels)))` applied to the
gathered labels: duplicates collapse (the set), and the falsy values
(`None` and the empty string) are dropped.  A Python set has no specified
iteration order; the order-insensitive `dedup` stands in for it, and all
theorems about this list are order-insensitive (membership, duplicates). -/
def dedupedBaseLabels (includeComponent : Bool) (labels_mapping : List (Str × Str))
    (approved_labels : List Str) (it : RawItem) : List Str :=
  (((gatheredLabels includeComponent labels_mapping approved_labels it).filterMap id).filter
    (fun s => !s.isEmpty)).dedup

/-- The priority label appended (after the dedup step) by

    labels.append('priority:' + proper_label_str(priority_txt))

inside the `try` block that reads `item.priority.text`; an absent priority
raises `AttributeError` and appends nothing. -/
def priorityLabels (it : RawItem) : List Str :=
  match it.priority with
  | some p => ["priority:".toList ++ proper_label_str p]
  | none => []

/-- The resolution label appended (after the dedup step) by

    labels.append('resolution:' + proper_label_str(resolution_txt))

inside the `try` block that reads `item.resolution.text`. -/
def resolutionLabels (it : RawItem) : List Str :=
  match it.resolution with
  | some r => ["resolution:".toList ++ proper_label_str r]
  | none => []

/-- The labels list stored into the Issue record by
`Project._append_item_to_project`: the deduplicated gathered labels,
then the priority label, then the resolution label (lines 152, 185, 207,
308 of project.py). -/
def normalizedIssueLabels (includeComponent : Bool)
    (labels_mapping : List (Str × Str)) (approved_labels : List Str)
    (it : RawItem) : List Str :=
  dedupedBaseLabels includeComponent labels_mapping approved_labels it
    ++ priorityLabels it ++ resolutionLabels it

/-- Effect of `Project._add_labels` on the labels list of the current
issue.  Each of its three `try` blocks evaluates `....text.trim()` on a
Python `str`; `str` has no `trim` method (that is the Java name; Python
uses `strip`), so every block raises `AttributeError` before reaching its
`labels.append(...)` line, and the surrounding `except AttributeError:
pass` swallows it.  The histogram increments preceding the `.trim()`
calls do run, but the issue label list is never extended. -/
def _add_labels_labelsEffect (labels : List Str) : List Str := labels

/-- The label list of an Issue after `Project.add_item` has run
`_append_item_to_project` and `_add_labels` on one exported item. -/
def issueLabelsAfterAddItem (includeComponent : Bool)
    (labels_mapping : List (Str × Str)) (approved_labels : List Str)
    (it : RawItem) : List Str :=
  _add_labels_labelsEffect
    (normalizedIssueLabels includeComponent labels_mapping approved_labels it)

/-! ## importer.py: _find_jira_links and the import_issues post-pass -/

/-- Match step for pattern 2 of `Importer._find_jira_links`:
`re.findall(self.project.name + r'-(\d+)', text)`; the capture is the
(greedy, maximal) digit run. -/
def tryKeyRef (name : Str) (t : Str) : Option (Str × Nat) :=
  if name.isPrefixOf t then
    match t.drop name.length with
    | '-' :: r2 =>
      let ds := r2.takeWhile Char.isDigit
      if ds.isEmpty then none else some (ds, name.length + ds.length)
    | _ => none
  else none

/-- The negative-lookbehind literal of pattern 1 of
`Importer._find_jira_links`. -/
def noJiraLinkLookbehind : Str :=
  "<a class=\"no-jira-link-rewrite\" href=\"".toList

/-- Match step for pattern 1 of `Importer._find_jira_links`:
a negative lookbehind for the no-rewrite anchor, then
`{jiraBaseUrl}/browse/({name}-\d+)`.
The base URL is matched literally (its unescaped regex dots are intended
as literal dots).  The capture is the full `name-digits` key. -/
def tryFullUrlRef (base name : Str) (pre t : Str) : Option (Str × Nat) :=
  let browse := base ++ "/browse/".toList
  if browse.isPrefixOf t then
    let r1 := t.drop browse.length
    if name.isPrefixOf r1 then
      match r1.drop name.length with
      | '-' :: r3 =>
        let ds := r3.takeWhile Char.isDigit
        if ds.isEmpty then none
        else if noJiraLinkLookbehind.reverse.isPrefixOf pre then none
        else some (name ++ '-' :: ds, browse.length + name.length + ds.length)
      | _ => none
    else none
  else none

/-- Embedding of `Importer._find_jira_links`: the captures of the
full-URL pattern, then the captures of the bare-key pattern prefixed with
the project name, de-duplicated by `list(set(...))` (whose unspecified
iteration order is modelled by the order-insensitive `dedup`; all
theorems use only membership in this list). -/
def _find_jira_links (base name : Str) (text : Str) : List Str :=
  if text.isEmpty then []
  else
    let full_urls := findScanPre (tryFullUrlRef base name) text
    let project_keys := (findScan (tryKeyRef name) text).map
      (fun ds => name ++ '-' :: ds)
    (full_urls ++ project_keys).dedup

/-- One issue as it reaches the link-scanning part of
`Importer.import_issues`: its Jira key, its body, and the bodies of the
comment list that is scanned (`original_issue_comments`, which aliases
`issue['comments']` and therefore also contains the synthetic
relationship comments appended by `convert_relationships_to_comments`). -/
structure IssueIn where
  key : Str
  body : Str
  comments : List Str
deriving DecidableEq

/-- The link-related fields of one record of the
`jira-to-github-mapping` artifact built by `Importer.import_issues`.
The `has_*` fields are initialized to the falsy `[]` and overwritten with
the truthy string `'true'`; they are modelled as `Bool`.  The
`*_imported` fields do not exist before the post-pass runs (and the
post-pass skips a record whose `has_jira_links` is falsy), modelled as
`Option`.  The watcher/vote bookkeeping fields are unrelated to link
resolution and are omitted from the model. -/
structure IssueMapping where
  jira_issue_key : Str
  jira_links : List Str
  jira_links_in_body : List Str
  jira_links_in_comments : List Str
  has_jira_links : Bool
  has_jira_links_in_body : Bool
  has_jira_links_in_comments : Bool
  jira_links_imported : Option (List Str)
  jira_links_in_body_imported : Option (List Str)
  jira_links_in_comments_imported : Option (List Str)
deriving DecidableEq

/-- The mapping record built for one issue by lines 324-347 of
`Importer.import_issues` (before the post-pass): the body is scanned once,
each comment body is scanned and appended when non-empty, and the three
link lists are each passed through `list(set(...))`. -/
def mkIssueMapping (base name : Str) (i : IssueIn) : IssueMapping :=
  let issue_links := _find_jira_links base name i.body
  let comment_links := i.comments.map (_find_jira_links base name)
  let extendLinks := fun (init : List Str) =>
    comment_links.foldl (fun acc cl => if cl.isEmpty then acc else acc ++ cl) init
  { jira_issue_key := i.key
    jira_links := (extendLinks issue_links).dedup
    jira_links_in_body := issue_links.dedup
    jira_links_in_comments := (extendLinks []).dedup
    has_jira_links := !issue_links.isEmpty || comment_links.any (fun cl => !cl.isEmpty)
    has_jira_links_in_body := !issue_links.isEmpty
    has_jira_links_in_comments := comment_links.any (fun cl => !cl.isEmpty)
    jira_links_imported := none
    jira_links_in_body_imported := none
    jira_links_in_comments_imported := none }

/-- The post-pass of `Importer.import_issues` (lines 354-370) applied to
one mapping record: when the record has links, each found key is marked
imported exactly when it is a key of the accumulated
`github_issue_ids` dictionary (whose values, the numeric GitHub ids, are
never read by this pass — only key membership is tested). -/
def resolveImported (github_issue_ids : List Str) (m : IssueMapping) : IssueMapping :=
  if m.has_jira_links then
    let bodyImp := m.jira_links_in_body.filter (fun k => github_issue_ids.contains k)
    let comImp := m.jira_links_in_comments.filter (fun k => github_issue_ids.contains k)
    { m with
      jira_links_imported := some ((bodyImp ++ comImp).dedup)
      jira_links_in_body_imported := some bodyImp.dedup
      jira_links_in_comments_imported := some comImp.dedup }
  else m

/-- Embedding of the mapping-producing part of `Importer.import_issues`:
the issues before the resume offset are skipped, every processed issue is
submitted and contributes its key to `github_issue_ids`, and after the
whole corpus is submitted the post-pass resolves each record against the
full key set. -/
def import_issues (base name : Str) (start_from_count : Nat)
    (issues : List IssueIn) : List IssueMapping :=
  let processed := issues.drop start_from_count
  let github_issue_ids := processed.map IssueIn.key
  (processed.map (mkIssueMapping base name)).map (resolveImported github_issue_ids)

/-- Is the reference `K` marked resolvable (listed in
`jira_links_imported`) in the mapping record `m`? -/
def markedResolvable (m : IssueMapping) (K : Str) : Bool :=
  match m.jira_links_imported with
  | none => false
  | some l => l.contains K

/-- Is the reference `K` marked resolvable in the body partition
(`jira_links_in_body_imported`) of the mapping record `m`? -/
def markedResolvableInBody (m : IssueMapping) (K : Str) : Bool :=
  match m.jira_links_in_body_imported with
  | none => false
  | some l => l.contains K

/-! ## project.py: the hidden-reference block and the URL rewrite -/

/-- One step of Python `str.split()` word gathering, consumed by a right
fold over the characters. -/
def pyWordsAux (c : Char) (acc : List Str) : List Str :=
  if c.isWhitespace then [] :: acc
  else
    match acc with
    | [] => [[c]]
    | w :: t => (c :: w) :: t

/-- Embedding of `' '.join(s.strip().split())`: collapse every whitespace
run to a single space and drop leading/trailing whitespace. -/
def pyNormalizeSpace (s : Str) : Str :=
  List.intercalate " ".toList ((s.foldr pyWordsAux []).filter (fun w => !w.isEmpty))

/-- The metadata of one exported item that feeds the hidden-reference
block of `Project._append_item_to_project` (lines 264-292).  The Python
`assignee_username` is the empty string for an unassigned item and its
marker line is guarded by truthiness; it is modelled as `Option`. -/
structure NormMeta where
  issueType : Str
  epicKey : Option Str
  reporterUsername : Str
  assigneeUsername : Option Str
  components : List Str
  sourceLabels : List Str
  version : Str
deriving DecidableEq

/-- Embedding of the hidden-reference block built by lines 264-292 of
`Project._append_item_to_project`, concatenated in source order. -/
def buildHiddenRefs (key : Str) (meta : NormMeta) : Str :=
  let issue_type := pyNormalizeSpace meta.issueType
  let r := "<!-- ### Imported Jira references for easier searching -->".toList
  let r := r ++ "\n<!-- [jira_issue_key=".toList ++ key ++ "] -->".toList
  let r := r ++ "\n<!-- [jira_issue_type=".toList ++ issue_type ++ "] -->".toList
  let r := r ++ (if issue_type = "Epic".toList then
      "\n<!-- [jira_issue_is_epic_key=".toList ++ key ++ "] -->".toList
    else [])
  let r := r ++ (match meta.epicKey with
    | some e => "\n<!-- [jira_relationships_epic_key=".toList ++ e ++ "] -->".toList
    | none => [])
  let r := r ++ "\n<!-- [reporter=".toList ++ meta.reporterUsername ++ "] -->".toList
  let r := r ++ (match meta.assigneeUsername with
    | some a => "\n<!-- [assignee=".toList ++ a ++ "] -->".toList
    | none => [])
  let r := r ++ "\n<!-- [author=".toList ++ meta.reporterUsername ++ "] -->".toList
  let r := r ++ (meta.components.map
    (fun c => "\n<!-- [jira_component=".toList ++ c ++ "] -->".toList)).flatten
  let r := r ++ (meta.sourceLabels.map
    (fun l => "\n<!-- [jira_label=".toList ++ l ++ "] -->".toList)).flatten
  r ++ "\n<!-- [jira_issues_importer_version=".toList ++ meta.version ++ "] -->".toList

/-- First negative-lookbehind literal of the redirection rewrite. -/
def origJiraLookbehind1 : Str := "<a class=\"original-jira-link\" href=\"".toList

/-- Second negative-lookbehind literal of the redirection rewrite. -/
def origJiraLookbehind2 : Str :=
  "<a class=\"original-jira-link\" href=\"https://".toList

/-- Third negative-lookbehind literal of the redirection rewrite. -/
def origJiraLookbehind3 : Str :=
  "<a class=\"original-jira-link\" href=\"http://".toList

/-- Characters allowed in the optional query-string group of the
redirection rewrite (everything but whitespace and angle/quote marks). -/
def isQueryChar (c : Char) : Bool :=
  !(c.isWhitespace || c = '<' || c = '>' || c = '"')

/-- Embedding of
`jiraBaseUrl.replace('https://', '').replace('http://', '')`. -/
def stripProto (base : Str) : Str :=
  pyReplace "http://".toList [] (pyReplace "https://".toList [] base)

/-- Match step of the redirection rewrite of
`Project._replace_jira_urls_with_redirection_service`: three negative
lookbehinds, an optional protocol, the protocol-stripped base URL
(matched literally; its dots are regex-escaped in the source), `/browse/`,
the project name, a dash, a greedy digit run, and an optional query
string.  The replacement is the redirection service, `/issue/`, the digit
capture and the query capture. -/
def tryUrlRewrite (redirection base name : Str) (pre t : Str) :
    Option (Str × Nat) :=
  let baseNP := stripProto base
  if origJiraLookbehind1.reverse.isPrefixOf pre then none
  else if origJiraLookbehind2.reverse.isPrefixOf pre then none
  else if origJiraLookbehind3.reverse.isPrefixOf pre then none
  else
    let protoLen : Option Nat :=
      if ("https://".toList ++ baseNP).isPrefixOf t then some 8
      else if ("http://".toList ++ baseNP).isPrefixOf t then some 7
      else if baseNP.isPrefixOf t then some 0
      else none
    match protoLen with
    | none => none
    | some p =>
      let r1 := t.drop (p + baseNP.length)
      if "/browse/".toList.isPrefixOf r1 then
        let r2 := r1.drop 8
        if name.isPrefixOf r2 then
          match r2.drop name.length with
          | '-' :: r3 =>
            let ds := r3.takeWhile Char.isDigit
            if ds.isEmpty then none
            else
              let q : Str := match r3.drop ds.length with
                | '?' :: r5 => '?' :: r5.takeWhile isQueryChar
                | _ => []
              some (redirection ++ "/issue/".toList ++ ds ++ q,
                p + baseNP.length + 8 + name.length + ds.length + q.length)
          | _ => none
        else none
      else none

/-- Embedding of `Project._replace_jira_urls_with_redirection_service`
for a non-`None` argument: the identity when no redirection service is
configured (falsy empty string), the rewrite otherwise. -/
def replace_jira_urls (redirection base name : Str) (s : Str) : Str :=
  if redirection.isEmpty then s
  else subScanPre (tryUrlRewrite redirection base name) s

/-- The body stored into the Issue record by
`Project._append_item_to_project`: the hidden-reference block, a blank
line, then the previously-built description/metadata body (abstracted
here as `mainBody`, lines 154-262), with the redirection rewrite applied
to the whole (lines 295-298). -/
def buildIssueBody (redirection base name key : Str) (meta : NormMeta)
    (mainBody : Str) : Str :=
  replace_jira_urls redirection base name
    (buildHiddenRefs key meta ++ "\n\n".toList ++ mainBody)

/-! ## Helper lemmas -/

/-- A successful association-list lookup returns a stored pair. -/
theorem lookup_mem {α β : Type} [BEq α] [LawfulBEq α] :
    ∀ {m : List (α × β)} {k : α} {v : β}, m.lookup k = some v → (k, v) ∈ m := by
  intro m
  induction m with
  | nil => intro k v h; simp [List.lookup] at h
  | cons p t ih =>
    intro k v h
    rw [List.lookup] at h
    by_cases hk : k == p.1
    · rw [hk] at h
      simp at h
      have : k = p.1 := eq_of_beq hk
      subst this
      rw [← h]
      exact List.mem_cons_self _ _
    · rw [Bool.eq_false_iff.mpr hk] at h
      exact List.mem_cons_of_mem _ (ih h)

/-! ## C4: idempotence of convert_label -/

/-- C4 (counterexample): `convert_label` is not idempotent.  With the
renaming table `a -> b, b -> c` and the allow-list `[b, c]`, one
application of `convert_label` to `a` gives `b`, but a second application
renames `b` on to `c`. -/
theorem C4_convert_label_not_idempotent :
    convert_label
        (convert_label (some "a".toList)
          [("a".toList, "b".toList), ("b".toList, "c".toList)]
          ["b".toList, "c".toList])
        [("a".toList, "b".toList), ("b".toList, "c".toList)]
        ["b".toList, "c".toList]
      ≠ convert_label (some "a".toList)
        [("a".toList, "b".toList), ("b".toList, "c".toList)]
        ["b".toList, "c".toList] := by
  decide

/-- C4 (amended): `convert_label` is idempotent for every mapping table
whose values are fixed points of the renaming step (in particular for
every table whose values do not occur among its keys); without that
restriction a chained table `a -> b, b -> c` refutes the claim. -/
theorem C4_convert_label_idempotent_of_stable
    (labels_mappings : List (Str × Str)) (approved_labels : List Str)
    (hstable : ∀ p ∈ labels_mappings,
      _map_label (some p.2) labels_mappings = some p.2)
    (label : Option Str) :
    convert_label (convert_label label labels_mappings approved_labels)
        labels_mappings approved_labels
      = convert_label label labels_mappings approved_labels := by
  by_cases happ :
      _is_label_approved (_map_label label labels_mappings) approved_labels
  · -- the first application returns the mapped label
    have h1 : convert_label label labels_mappings approved_labels
        = _map_label label labels_mappings := by
      unfold convert_label
      rw [if_pos happ]
    -- the mapped label is approved, hence of the form `some v`
    obtain ⟨v, hv⟩ : ∃ v, _map_label label labels_mappings = some v := by
      cases hm : _map_label label labels_mappings with
      | none => rw [hm] at happ; simp [_is_label_approved] at happ
      | some v => exact ⟨v, rfl⟩
    -- the mapped label is itself a fixed point of the renaming step
    have hfix : _map_label (some v) labels_mappings = some v := by
      cases label with
      | none => simp [_map_label] at hv
      | some l =>
        cases hl : labels_mappings.lookup l with
        | some w =>
          have hw : _map_label (some l) labels_mappings = some w := by
            simp only [_map_label]; rw [hl]
          rw [hw] at hv
          have : w = v := Option.some.inj hv
          subst this
          exact hstable (l, w) (lookup_mem hl)
        | none =>
          have hw : _map_label (some l) labels_mappings = some l := by
            simp only [_map_label]; rw [hl]
          rw [hw] at hv
          have : l = v := Option.some.inj hv
          subst this
          simp only [_map_label]
          rw [hl]
    rw [h1, hv]
    unfold convert_label
    rw [hfix]
    have happv : _is_label_approved (some v) approved_labels := by
      rw [hv] at happ; exact happ
    rw [if_pos happv]
  · -- the first application returns `None`, and `convert_label None = None`
    have h1 : convert_label label labels_mappings approved_labels = none := by
      unfold convert_label
      rw [if_neg happ]
    rw [h1]
    unfold convert_label _map_label _is_label_approved
    simp

/-- C4 (witness): the amended idempotence theorem applied to the table
`a -> b` with allow-list `[b]` at the label `a`. -/
theorem C4_witness :
    convert_label
        (convert_label (some "a".toList) [("a".toList, "b".toList)] ["b".toList])
        [("a".toList, "b".toList)] ["b".toList]
      = convert_label (some "a".toList) [("a".toList, "b".toList)] ["b".toList] :=
  C4_convert_label_idempotent_of_stable
    [("a".toList, "b".toList)] ["b".toList] (by decide) (some "a".toList)

/-- Equality of `Except` values over decidable components is decidable;
used to evaluate `get_colour` results. -/
instance exceptDecEq {e a : Type} [DecidableEq e] [DecidableEq a] :
    DecidableEq (Except e a) := fun x y =>
  match x, y with
  | .ok u, .ok w =>
    if h : u = w then .isTrue (congrArg Except.ok h)
    else .isFalse (fun hc => h (Except.ok.inj hc))
  | .error u, .error w =>
    if h : u = w then .isTrue (congrArg Except.error h)
    else .isFalse (fun hc => h (Except.error.inj hc))
  | .ok _, .error _ => .isFalse (fun hc => Except.noConfusion hc)
  | .error _, .ok _ => .isFalse (fun hc => Except.noConfusion hc)

/-! ## C6: the colour selector -/

/-- C6 (code bug): the colour selector does not implement its fixed rule
table.  Because the source spells the method `startwith` (instead of
`startswith`), every label other than `jira-type:epic` raises
`AttributeError` when the second branch is evaluated; in particular the
label `bug` never receives its colour `ee4035`, and `jira-type:` labels
other than the epic one never receive `7bc043`. -/
theorem C6_get_colour_raises_on_bug :
    get_colour "bug".toList
        = Except.error "AttributeError: str has no attribute startwith".toList
      ∧ get_colour "bug".toList ≠ Except.ok "ee4035".toList
      ∧ get_colour "jira-type:task".toList ≠ Except.ok "7bc043".toList
      ∧ get_colour "jira-type:epic".toList = Except.ok "ddf4dd".toList := by
  refine ⟨by decide, by decide, by decide, by decide⟩

/-! ## C8: internal-field stripping before submission -/

/-- C8: before a submission (live or dry-run) every field of the issue
whose name begins with an underscore is removed from the submitted
document; every other field survives with its value unchanged, and the
relative order of the surviving fields is preserved. -/
theorem C8_strip_internal_fields {V : Type} (dry_run : Bool)
    (issue_url jira_key : Str) (issue : List (Str × V))
    (comments : List (List (Str × V))) (k : Str) (v : V) :
    ((k, v) ∈ (upload_github_issue dry_run issue_url jira_key issue
        comments).doc.issue
      ↔ ((k, v) ∈ issue ∧ startsWithUnderscore k = false))
    ∧ (upload_github_issue dry_run issue_url jira_key issue
        comments).doc.issue.Sublist issue := by
  have hdoc : (upload_github_issue dry_run issue_url jira_key issue
      comments).doc.issue = stripInternalFields issue := by
    cases dry_run <;> rfl
  rw [hdoc]
  constructor
  · rw [stripInternalFields, List.mem_filter]
    simp
  · exact List.filter_sublist _

/-! ## C9: dry-run and live submission share the document -/

/-- C9: the document written to the dry-run artifact and the document
posted live are the same value on every input — the construction is
shared and the two modes diverge only at the transport step, which is
a local file in dry-run mode and the import endpoint in live mode. -/
theorem C9_dry_run_doc_eq_live {V : Type} (issue_url jira_key : Str)
    (issue : List (Str × V)) (comments : List (List (Str × V))) :
    (upload_github_issue true issue_url jira_key issue comments).doc
        = (upload_github_issue false issue_url jira_key issue comments).doc
    ∧ (upload_github_issue true issue_url jira_key issue comments).transport
        = .savedToLocalFile ("dry-run/".toList ++ jira_key ++ ".json".toList)
    ∧ (upload_github_issue false issue_url jira_key issue comments).transport
        = .postedToTarget issue_url := by
  exact ⟨rfl, rfl, rfl⟩

/-! ## C3: the polling loop -/

/-- C3: in the polling loop, a 404 response is retried and never
reported; any other non-200 code is fatal; a 200 response with status
`pending` continues the loop; a 200 response with any other status ends
the loop with an outcome that does not depend on later responses —
`imported` returns the response (which carries the assigned issue URL),
`failed` raises with the reported errors, and any other terminal status
raises the defensive unexpected-status error. -/
theorem C3_polling_loop :
    (∀ (r : PollResp) (rest : List PollResp), r.status_code = 404 →
        wait_for_issue_creation (r :: rest) = wait_for_issue_creation rest)
    ∧ (∀ (r : PollResp) (rest : List PollResp),
        r.status_code ≠ 404 → r.status_code ≠ 200 →
        wait_for_issue_creation (r :: rest) = some (.fatalHttp r.status_code))
    ∧ (∀ (r : PollResp) (rest : List PollResp),
        r.status_code = 200 → r.status = "pending".toList →
        wait_for_issue_creation (r :: rest) = wait_for_issue_creation rest)
    ∧ (∀ (r : PollResp) (rest rest2 : List PollResp),
        r.status_code = 200 → r.status ≠ "pending".toList →
        wait_for_issue_creation (r :: rest) = wait_for_issue_creation (r :: rest2))
    ∧ (∀ (r : PollResp) (rest : List PollResp),
        r.status_code = 200 → r.status = "imported".toList →
        wait_for_issue_creation (r :: rest) = some (.imported r))
    ∧ (∀ (r : PollResp) (rest : List PollResp),
        r.status_code = 200 → r.status = "failed".toList →
        wait_for_issue_creation (r :: rest) = some (.failedWith r.errors))
    ∧ (∀ (r : PollResp) (rest : List PollResp),
        r.status_code = 200 → r.status ≠ "pending".toList →
        r.status ≠ "imported".toList → r.status ≠ "failed".toList →
        wait_for_issue_creation (r :: rest) = some (.unexpectedStatus r.status)) := by
  refine ⟨?_, ?_, ?_, ?_, ?_, ?_, ?_⟩
  · intro r rest h404
    rw [wait_for_issue_creation, if_pos h404]
  · intro r rest h404 h200
    rw [wait_for_issue_creation, if_neg h404, if_pos h200]
  · intro r rest h200 hpend
    rw [wait_for_issue_creation, if_neg (by rw [h200]; decide),
      if_neg (by rw [h200]; decide), if_pos hpend]
  · intro r rest rest2 h200 hpend
    rw [wait_for_issue_creation, wait_for_issue_creation]
    rw [if_neg (show ¬r.status_code = 404 by rw [h200]; decide)]
    rw [if_neg (show ¬r.status_code ≠ 200 by rw [h200]; decide)]
    rw [if_neg hpend]
    rw [if_neg (show ¬r.status_code = 404 by rw [h200]; decide)]
    rw [if_neg (show ¬r.status_code ≠ 200 by rw [h200]; decide)]
    rw [if_neg hpend]
  · intro r rest h200 himp
    rw [wait_for_issue_creation, if_neg (by rw [h200]; decide),
      if_neg (by rw [h200]; decide), if_neg (by rw [himp]; decide), if_pos himp]
  · intro r rest h200 hfail
    rw [wait_for_issue_creation, if_neg (by rw [h200]; decide),
      if_neg (by rw [h200]; decide), if_neg (by rw [hfail]; decide),
      if_neg (by rw [hfail]; decide), if_pos hfail]
  · intro r rest h200 hpend himp hfail
    rw [wait_for_issue_creation, if_neg (by rw [h200]; decide),
      if_neg (by rw [h200]; decide), if_neg hpend, if_neg himp, if_neg hfail]

/-- C3 (witness): the polling-loop theorem applied to concrete responses:
a 404, a fatal 500, a pending beat, a terminal import, a terminal
failure, and an unexpected terminal status. -/
theorem C3_witness :
    (wait_for_issue_creation [⟨404, "pending".toList, [], []⟩]
        = wait_for_issue_creation [])
    ∧ (wait_for_issue_creation [⟨500, [], [], []⟩] = some (.fatalHttp 500))
    ∧ (wait_for_issue_creation
        [⟨200, "pending".toList, [], []⟩, ⟨500, [], [], []⟩]
        = wait_for_issue_creation [⟨500, [], [], []⟩])
    ∧ (wait_for_issue_creation
        [⟨200, "imported".toList, "u".toList, []⟩, ⟨500, [], [], []⟩]
        = wait_for_issue_creation [⟨200, "imported".toList, "u".toList, []⟩])
    ∧ (wait_for_issue_creation [⟨200, "imported".toList, "u".toList, []⟩]
        = some (.imported ⟨200, "imported".toList, "u".toList, []⟩))
    ∧ (wait_for_issue_creation [⟨200, "failed".toList, [], "e".toList⟩]
        = some (.failedWith "e".toList))
    ∧ (wait_for_issue_creation [⟨200, "weird".toList, [], []⟩]
        = some (.unexpectedStatus "weird".toList)) :=
  ⟨C3_polling_loop.1 _ _ (by decide),
   C3_polling_loop.2.1 _ _ (by decide) (by decide),
   C3_polling_loop.2.2.1 _ _ (by decide) (by decide),
   C3_polling_loop.2.2.2.1 _ _ _ (by decide) (by decide),
   C3_polling_loop.2.2.2.2.1 _ _ (by decide) (by decide),
   C3_polling_loop.2.2.2.2.2.1 _ _ (by decide) (by decide),
   C3_polling_loop.2.2.2.2.2.2 _ _ (by decide) (by decide) (by decide) (by decide)⟩

/-! ## C7: label import in dry-run mode -/

/-- C7 (code bug): in dry-run mode the label-import loop does not treat
creation as success — it crashes.  The POST to the target is guarded by
`if not dry_run`, so the local `r` is never assigned, yet the success
test reads `r.status_code` unconditionally, raising `UnboundLocalError`
on the first label that survives conversion.  (Reaching that line also
requires the colour lookup not to raise; see `get_colour`, which only
the label `jira-type:epic` survives.) -/
theorem C7_dry_run_raises_unbound_local :
    import_labels true true [] [] ["jira-type:epic".toList] (fun _ => 201)
        ["jira-type:epic".toList]
      = ([], some (.unboundLocal "r".toList)) := by
  decide

/-! ## C2: no duplicate labels -/

/-- A priority-derived label never coincides with a resolution-derived
label: the two fixed prefixes differ at their first character. -/
theorem priority_label_ne_resolution_label (a b : Str) :
    "priority:".toList ++ a ≠ "resolution:".toList ++ b := by
  intro h
  have h1 : ("priority:".toList ++ a).head? = some 'p' := rfl
  have h2 : ("resolution:".toList ++ b).head? = some 'r' := rfl
  rw [h] at h1
  rw [h1] at h2
  have h3 : ('p' : Char) = 'r' := Option.some.inj h2
  exact absurd h3 (by decide)

/-- C2 (counterexample): the label list of a normalized Issue can
contain duplicates.  An item whose source label `priority:high` passes
the allow-list and whose priority field is `High` receives the label
`priority:high` twice: once from the (de-duplicated) gathered labels and
once from the priority metadata appended after the de-duplication step. -/
theorem C2_labels_can_duplicate :
    ¬ (issueLabelsAfterAddItem false [] ["priority:high".toList]
        ⟨[], "bug".toList, ["priority:high".toList], some "High".toList,
          none⟩).Nodup := by
  decide

/-- C2 (amended): the component/source-label/type-derived labels are
de-duplicated, so the full label list of a normalized Issue has no
duplicates provided the priority- and resolution-derived labels (which
are appended after the de-duplication step) do not already occur among
the de-duplicated labels; without that proviso the duplicate
`priority:high` above refutes the claim. -/
theorem C2_labels_nodup_of_fresh_metadata (includeComponent : Bool)
    (labels_mapping : List (Str × Str)) (approved_labels : List Str)
    (it : RawItem)
    (hp : ∀ x ∈ priorityLabels it,
      x ∉ dedupedBaseLabels includeComponent labels_mapping approved_labels it)
    (hr : ∀ x ∈ resolutionLabels it,
      x ∉ dedupedBaseLabels includeComponent labels_mapping approved_labels it) :
    (issueLabelsAfterAddItem includeComponent labels_mapping approved_labels
      it).Nodup := by
  unfold issueLabelsAfterAddItem _add_labels_labelsEffect normalizedIssueLabels
  rw [List.append_assoc, List.nodup_append]
  refine ⟨?_, ?_, ?_⟩
  · exact List.nodup_dedup _
  · -- the metadata labels are distinct (at most one of each, with
    -- different fixed prefixes)
    rw [List.nodup_append]
    refine ⟨?_, ?_, ?_⟩
    · cases hP : it.priority <;> simp [priorityLabels, hP]
    · cases hR : it.resolution <;> simp [resolutionLabels, hR]
    · intro x hx hy
      cases hP : it.priority with
      | none => rw [priorityLabels, hP] at hx; cases hx
      | some p =>
        cases hR : it.resolution with
        | none => rw [resolutionLabels, hR] at hy; cases hy
        | some r =>
          rw [priorityLabels, hP] at hx
          rw [resolutionLabels, hR] at hy
          have hxp := List.mem_singleton.mp hx
          have hyr := List.mem_singleton.mp hy
          rw [hxp] at hyr
          exact priority_label_ne_resolution_label _ _ hyr
  · intro x hx hy
    rcases List.mem_append.mp hy with h | h
    · exact hp x h hx
    · exact hr x h hx

/-- C2 (witness): the amended no-duplicates theorem applied to an item
whose priority and resolution labels are fresh: component-less, of type
`Bug`, with one allow-listed source label `foo`, priority `High` and
resolution `Fixed`. -/
theorem C2_witness :
    (issueLabelsAfterAddItem false [] ["foo".toList]
      ⟨[], "Bug".toList, ["foo".toList], some "High".toList,
        some "Fixed".toList⟩).Nodup :=
  C2_labels_nodup_of_fresh_metadata false [] ["foo".toList]
    ⟨[], "Bug".toList, ["foo".toList], some "High".toList,
      some "Fixed".toList⟩ (by decide) (by decide)

/-! ## C5: content rewriting on clean text -/

/-- A scanner whose match step fires nowhere in the subject leaves the
subject unchanged, for any amount of fuel. -/
theorem subScanF_eq_self (tm : Str → Option (Str × Nat)) :
    ∀ (fuel : Nat) (s : Str), (∀ t, t <:+ s → tm t = none) →
      subScanF tm fuel s = s := by
  intro fuel
  induction fuel with
  | zero => intro s _; cases s <;> rfl
  | succ n ih =>
    intro s h
    cases s with
    | nil => rfl
    | cons c rest =>
      have step : subScanF tm (n + 1) (c :: rest)
          = match tm (c :: rest) with
            | none => c :: subScanF tm n rest
            | some (out, k) => out ++ subScanF tm n (rest.drop k) := rfl
      rw [step, h (c :: rest) (List.suffix_refl _)]
      show c :: subScanF tm n rest = c :: rest
      rw [ih rest (fun t ht => h t (ht.trans (List.suffix_cons c rest)))]

/-- When the literal `pat` occurs nowhere in `s`, it is a prefix of no
suffix of `s`. -/
theorem not_prefix_of_suffix_of_not_containsSub (pat : Str) :
    ∀ (s : Str), containsSub pat s = false →
      ∀ t, t <:+ s → pat.isPrefixOf t = false := by
  intro s
  induction s with
  | nil =>
    intro h t ht
    have ht0 : t = [] := List.suffix_nil.mp ht
    subst ht0
    cases pat with
    | nil => simp [containsSub] at h
    | cons p pt => rfl
  | cons c rest ih =>
    intro h t ht
    rw [containsSub, Bool.or_eq_false_iff] at h
    rcases List.suffix_cons_iff.mp ht with h1 | h2
    · rw [h1]; exact h.1
    · exact ih h.2 t h2

/-- C5 (counterexample): on text containing none of the recognized block
constructs, `_clean_html` is not mention-escaping alone — the pipeline
also decodes HTML entities.  The input `&amp;` has no block markers and
no mention token, yet it is rewritten to `&`. -/
theorem C5_clean_html_decodes_entities :
    containsSub codeOpen "&amp;".toList = false
    ∧ containsSub noformatOpen "&amp;".toList = false
    ∧ containsSub panelOpen "&amp;".toList = false
    ∧ mentionEscape "&amp;".toList = "&amp;".toList
    ∧ _clean_html "&amp;".toList = "&".toList
    ∧ "&amp;".toList ≠ "&".toList := by
  refine ⟨by decide, by decide, by decide, by decide, by decide, by decide⟩

/-- Does the entity-decoding pattern `&(name1|name2|...);` match at some
position of the text?  This is exactly the condition under which the
entity-decoding `re.sub` of `_htmlentitydecode` rewrites anything: a
bare ampersand (as in `AT&T` or `a & b`) never matches, because the
pattern also needs a table name and a semicolon. -/
def containsEntityRef (table : List (Str × Nat)) : Str → Bool
  | [] => false
  | c :: rest => (tryEntity table (c :: rest)).isSome || containsEntityRef table rest

/-- When no entity reference occurs in `s`, the entity match step fires
at no suffix of `s`. -/
theorem tryEntity_none_of_not_containsEntityRef (table : List (Str × Nat)) :
    ∀ (s : Str), containsEntityRef table s = false →
      ∀ t, t <:+ s → tryEntity table t = none := by
  intro s
  induction s with
  | nil =>
    intro _ t ht
    rw [List.suffix_nil.mp ht]
    rfl
  | cons c rest ih =>
    intro h t ht
    rw [containsEntityRef, Bool.or_eq_false_iff] at h
    rcases List.suffix_cons_iff.mp ht with h1 | h2
    · rw [h1]
      cases hv : tryEntity table (c :: rest) with
      | none => rfl
      | some v =>
        rw [hv] at h
        exact absurd h.1 (by simp)
    · exact ih h.2 t h2

/-- C5 (amended): on text containing none of the recognized block
constructs and nothing for the entity-decoding prepass to rewrite (no
ampersand-named HTML entity reference and no eight-space run),
`_clean_html` returns the text unchanged except for mention-escaping;
without the entity proviso the input `&amp;` refutes the claim.  A bare
ampersand is allowed: `AT&T` carries no entity reference. -/
theorem C5_clean_html_is_mention_escape_on_clean_text (s : Str)
    (h8 : containsSub eightSpaces s = false)
    (hamp : containsEntityRef name2codepoint s = false)
    (hcode : containsSub codeOpen s = false)
    (hnof : containsSub noformatOpen s = false)
    (hpanel : containsSub panelOpen s = false) :
    _clean_html s = mentionEscape s := by
  have hrep : pyReplace eightSpaces [] s = s := by
    apply subScanF_eq_self
    intro t ht
    rw [tryReplace, if_neg]
    rintro ⟨-, hpre⟩
    rw [not_prefix_of_suffix_of_not_containsSub eightSpaces s h8 t ht] at hpre
    exact Bool.false_ne_true hpre
  have hent : subScan (tryEntity name2codepoint) s = s := by
    apply subScanF_eq_self
    intro t ht
    exact tryEntity_none_of_not_containsEntityRef name2codepoint s hamp t ht
  have hcodeId : subScan tryCodeBlock s = s := by
    apply subScanF_eq_self
    intro t ht
    rw [tryCodeBlock, if_neg]
    intro hpre
    rw [not_prefix_of_suffix_of_not_containsSub codeOpen s hcode t ht] at hpre
    exact Bool.false_ne_true hpre
  have hnofId : subScan tryNoformatBlock s = s := by
    apply subScanF_eq_self
    intro t ht
    rw [tryNoformatBlock, if_neg]
    intro hpre
    rw [not_prefix_of_suffix_of_not_containsSub noformatOpen s hnof t ht] at hpre
    exact Bool.false_ne_true hpre
  have hpt : subScan tryPanelTitled s = s := by
    apply subScanF_eq_self
    intro t ht
    rw [tryPanelTitled, if_neg]
    intro hpre
    rw [not_prefix_of_suffix_of_not_containsSub panelOpen s hpanel t ht] at hpre
    exact Bool.false_ne_true hpre
  have hpu : subScan tryPanelUntitled s = s := by
    apply subScanF_eq_self
    intro t ht
    rw [tryPanelUntitled, if_neg]
    intro hpre
    rw [not_prefix_of_suffix_of_not_containsSub panelOpen s hpanel t ht] at hpre
    exact Bool.false_ne_true hpre
  rw [_clean_html, _htmlentitydecode]
  rw [hrep, hent, hcodeId, hnofId, hpt, hpu]
  rfl

/-- C5 (witness): the amended rewriting theorem applied to the clean text
`AT&T and @bob`, whose bare ampersand is no entity reference. -/
theorem C5_witness :
    _clean_html "AT&T and @bob".toList
      = mentionEscape "AT&T and @bob".toList :=
  C5_clean_html_is_mention_escape_on_clean_text "AT&T and @bob".toList
    (by decide) (by decide) (by decide) (by decide) (by decide)

/-! ## C1: corpus-wide cross-reference resolution -/

/-- The comment-link accumulation loop of `import_issues` appends
exactly the concatenation of the per-comment link lists (appending an
empty list in the falsy branch would change nothing). -/
theorem extendLinks_eq_append (comment_links : List (List Str)) :
    ∀ init : List Str,
      comment_links.foldl (fun acc cl => if cl.isEmpty then acc else acc ++ cl)
        init = init ++ comment_links.flatten := by
  induction comment_links with
  | nil => intro init; simp
  | cons cl t ih =>
    intro init
    rw [List.foldl_cons]
    by_cases hcl : cl.isEmpty
    · rw [if_pos hcl, ih, List.isEmpty_iff.mp hcl]
      simp
    · rw [if_neg hcl, ih]
      simp [List.append_assoc]

/-- Membership in a key list is invariant under reversing the list, at
the `Bool` level used by the post-pass. -/
theorem contains_reverse (l : List Str) (K : Str) :
    l.reverse.contains K = l.contains K := by
  rw [Bool.eq_iff_iff]
  constructor
  · intro h
    exact List.elem_iff.mpr (List.mem_reverse.mp (List.elem_iff.mp h))
  · intro h
    exact List.elem_iff.mpr (List.mem_reverse.mpr (List.elem_iff.mp h))

/-- The post-pass only reads key membership: two id tables that agree on
membership produce the same resolved record. -/
theorem resolveImported_congr (ids1 ids2 : List Str)
    (h : ∀ K, ids1.contains K = ids2.contains K) (m : IssueMapping) :
    resolveImported ids1 m = resolveImported ids2 m := by
  rw [resolveImported, resolveImported]
  have hb : m.jira_links_in_body.filter (fun k => ids1.contains k)
      = m.jira_links_in_body.filter (fun k => ids2.contains k) :=
    List.filter_congr (fun a _ => h a)
  have hc : m.jira_links_in_comments.filter (fun k => ids1.contains k)
      = m.jira_links_in_comments.filter (fun k => ids2.contains k) :=
    List.filter_congr (fun a _ => h a)
  rw [hb, hc]

/-- The post-pass does not rewrite the found-link fields of a record. -/
theorem resolveImported_preserves (ids : List Str) (m : IssueMapping) :
    (resolveImported ids m).jira_links = m.jira_links
    ∧ (resolveImported ids m).jira_links_in_body = m.jira_links_in_body
    ∧ (resolveImported ids m).jira_links_in_comments = m.jira_links_in_comments
    ∧ (resolveImported ids m).has_jira_links = m.has_jira_links := by
  rw [resolveImported]
  split <;> exact ⟨rfl, rfl, rfl, rfl⟩

/-- C1: for every corpus, a reference K found in an issue record is
marked resolvable by the post-pass exactly when K is the source key of a
processed issue; a key marked resolvable always belongs to the corpus;
and reversing the submission order reverses the record list without
changing any record, so resolvability depends only on corpus
membership. -/
theorem C1_cross_reference_resolution :
    (∀ (base name : Str) (start : Nat) (issues : List IssueIn)
        (m : IssueMapping) (K : Str),
        m ∈ import_issues base name start issues →
        K ∈ m.jira_links →
        (markedResolvable m K = true ↔
          K ∈ (issues.drop start).map IssueIn.key))
    ∧ (∀ (base name : Str) (start : Nat) (issues : List IssueIn)
        (m : IssueMapping) (K : Str),
        m ∈ import_issues base name start issues →
        markedResolvable m K = true →
        K ∈ (issues.drop start).map IssueIn.key)
    ∧ (∀ (base name : Str) (issues : List IssueIn),
        import_issues base name 0 issues.reverse
          = (import_issues base name 0 issues).reverse) := by
  have main : ∀ (base name : Str) (start : Nat) (issues : List IssueIn)
      (m : IssueMapping) (K : Str),
      m ∈ import_issues base name start issues →
      ((K ∈ m.jira_links →
        (markedResolvable m K = true ↔
          K ∈ (issues.drop start).map IssueIn.key))
      ∧ (markedResolvable m K = true →
          K ∈ (issues.drop start).map IssueIn.key)) := by
    intro base name start issues m K hm
    unfold import_issues at hm
    obtain ⟨M0, hM0, hres⟩ := List.mem_map.mp hm
    obtain ⟨i, hi, hmk⟩ := List.mem_map.mp hM0
    subst hmk
    subst hres
    set ids := (issues.drop start).map IssueIn.key with hids
    set M := mkIssueMapping base name i with hM
    -- the found links of the record, before and after the post-pass
    have hlinks :
        M.jira_links = (_find_jira_links base name i.body
          ++ (i.comments.map (_find_jira_links base name)).flatten).dedup := by
      rw [hM]
      simp only [mkIssueMapping]
      rw [extendLinks_eq_append]
      try rw [List.nil_append]
    have hbody : M.jira_links_in_body
        = (_find_jira_links base name i.body).dedup := by
      rw [hM]
      simp only [mkIssueMapping]
    have hcom : M.jira_links_in_comments
        = ((i.comments.map (_find_jira_links base name)).flatten).dedup := by
      rw [hM]
      simp only [mkIssueMapping]
      rw [extendLinks_eq_append]
      try rw [List.nil_append]
    have hhas : M.has_jira_links
        = (!(_find_jira_links base name i.body).isEmpty
          || (i.comments.map (_find_jira_links base name)).any
              (fun cl => !cl.isEmpty)) := by
      rw [hM]
      simp only [mkIssueMapping]
    -- if K is among the record links then the record has links
    have hasOf : K ∈ M.jira_links → M.has_jira_links = true := by
      intro hK
      rw [hlinks, List.mem_dedup] at hK
      rw [hhas]
      rcases List.mem_append.mp hK with h | h
      · rw [Bool.or_eq_true]
        left
        rw [Bool.not_eq_true', ← Bool.not_eq_true, List.isEmpty_iff]
        intro h0
        rw [h0] at h
        cases h
      · rw [Bool.or_eq_true]
        right
        obtain ⟨cl, hcl, hKcl⟩ := List.mem_flatten.mp h
        exact List.any_eq_true.mpr ⟨cl, hcl,
          by rw [Bool.not_eq_true', ← Bool.not_eq_true, List.isEmpty_iff]
             intro h0; rw [h0] at hKcl; cases hKcl⟩
    constructor
    · -- the iff, assuming K is a found link
      intro hK
      have hKl : K ∈ M.jira_links := by
        rw [(resolveImported_preserves ids M).1] at hK
        exact hK
      have hhasT := hasOf hKl
      have himp : (resolveImported ids M).jira_links_imported
          = some ((M.jira_links_in_body.filter (fun k => ids.contains k)
            ++ M.jira_links_in_comments.filter (fun k => ids.contains k)).dedup) := by
        rw [resolveImported, if_pos hhasT]
      rw [markedResolvable, himp]
      constructor
      · intro hcont
        have hmem := List.elem_iff.mp hcont
        rw [List.mem_dedup] at hmem
        rcases List.mem_append.mp hmem with h | h
        · exact List.elem_iff.mp (List.mem_filter.mp h).2
        · exact List.elem_iff.mp (List.mem_filter.mp h).2
      · intro hKin
        apply List.elem_iff.mpr
        rw [List.mem_dedup]
        rw [hlinks, List.mem_dedup] at hKl
        rcases List.mem_append.mp hKl with h | h
        · apply List.mem_append.mpr
          left
          exact List.mem_filter.mpr ⟨by rw [hbody, List.mem_dedup]; exact h,
            List.elem_iff.mpr hKin⟩
        · apply List.mem_append.mpr
          right
          exact List.mem_filter.mpr ⟨by rw [hcom, List.mem_dedup]; exact h,
            List.elem_iff.mpr hKin⟩
    · -- a marked key always belongs to the corpus
      intro hmarked
      rw [markedResolvable] at hmarked
      cases himp : (resolveImported ids M).jira_links_imported with
      | none => rw [himp] at hmarked; cases hmarked
      | some l =>
        rw [himp] at hmarked
        by_cases hhasT : M.has_jira_links
        · have : l = (M.jira_links_in_body.filter (fun k => ids.contains k)
              ++ M.jira_links_in_comments.filter
                (fun k => ids.contains k)).dedup := by
            have := himp
            rw [resolveImported, if_pos hhasT] at this
            exact (Option.some.inj this).symm
          subst this
          have hmem := List.elem_iff.mp hmarked
          rw [List.mem_dedup] at hmem
          rcases List.mem_append.mp hmem with h | h
          · exact List.elem_iff.mp (List.mem_filter.mp h).2
          · exact List.elem_iff.mp (List.mem_filter.mp h).2
        · have : (resolveImported ids M).jira_links_imported = none := by
            rw [resolveImported, if_neg hhasT]
            rw [hM]
            simp only [mkIssueMapping]
          rw [this] at himp
          cases himp
  refine ⟨fun base name start issues m K hm => (main base name start issues m K hm).1,
    fun base name start issues m K hm => (main base name start issues m K hm).2, ?_⟩
  intro base name issues
  unfold import_issues
  simp only [List.drop_zero]
  rw [List.map_reverse, List.map_reverse, List.map_reverse]
  apply congrArg
  apply List.map_congr_left
  intro m _
  exact resolveImported_congr _ _ (fun K => contains_reverse _ K) m

/-- C1 (witness): the resolution theorem applied to a two-issue corpus
in which the body of `INFRA-1` references `INFRA-2` and the key
`INFRA-2` is submitted: the reference is marked resolvable exactly
because the key is in the corpus. -/
theorem C1_witness :
    markedResolvable
        ((import_issues "https://issues.jenkins.io".toList "INFRA".toList 0
          [⟨"INFRA-1".toList, "x INFRA-2 y".toList, []⟩,
           ⟨"INFRA-2".toList, [], []⟩]).get ⟨0, by decide⟩)
        "INFRA-2".toList = true
      ↔ "INFRA-2".toList ∈
        (([⟨"INFRA-1".toList, "x INFRA-2 y".toList, []⟩,
           ⟨"INFRA-2".toList, [], []⟩] : List IssueIn).drop 0).map
          IssueIn.key :=
  C1_cross_reference_resolution.1 "https://issues.jenkins.io".toList
    "INFRA".toList 0
    [⟨"INFRA-1".toList, "x INFRA-2 y".toList, []⟩, ⟨"INFRA-2".toList, [], []⟩]
    ((import_issues "https://issues.jenkins.io".toList "INFRA".toList 0
      [⟨"INFRA-1".toList, "x INFRA-2 y".toList, []⟩,
       ⟨"INFRA-2".toList, [], []⟩]).get ⟨0, by decide⟩)
    "INFRA-2".toList (List.get_mem _ _ _) (by decide)

/-! ## C10: the hidden-reference block carries the issue key -/

/-- A list of characters all satisfying `p`, followed by a character
refuting `p`, is its own maximal `p`-run. -/
theorem takeWhile_all_append (p : Char → Bool) :
    ∀ (ds : Str) (x : Char) (b : Str), (∀ c ∈ ds, p c = true) → p x = false →
      (ds ++ x :: b).takeWhile p = ds := by
  intro ds
  induction ds with
  | nil =>
    intro x b _ hx
    simp [List.takeWhile_cons, hx]
  | cons d r ih =>
    intro x b hall hx
    rw [List.cons_append, List.takeWhile_cons, hall d (List.mem_cons_self d r),
      if_pos rfl, ih x b (fun c hc => hall c (List.mem_cons_of_mem d hc)) hx]

/-- A maximal run is recovered by taking its own length of characters. -/
theorem take_length_takeWhile (p : Char → Bool) (l : Str) :
    l.take (l.takeWhile p).length = l.takeWhile p := by
  obtain ⟨t3, ht3⟩ :=
    (List.takeWhile_prefix p : l.takeWhile p <+: l)
  have h := List.take_left (l.takeWhile p) t3
  rw [ht3] at h
  exact h

/-- Specification of a successful bare-key match: the consumed text is
exactly the project name, a dash, and the nonempty digit capture. -/
theorem tryKeyRef_spec (name t cap : Str) (k : Nat)
    (h : tryKeyRef name t = some (cap, k)) :
    t.take (k + 1) = name ++ '-' :: cap ∧ cap ≠ []
      ∧ (∀ c ∈ cap, c.isDigit = true) ∧ k = name.length + cap.length := by
  rw [tryKeyRef] at h
  by_cases hpre : name.isPrefixOf t
  · rw [if_pos hpre] at h
    obtain ⟨t2, ht2⟩ := List.isPrefixOf_iff_prefix.mp hpre
    rw [← ht2] at h ⊢
    rw [List.drop_left] at h
    split at h
    · next r2 =>
      by_cases hds : (r2.takeWhile Char.isDigit).isEmpty
      · rw [if_pos hds] at h
        exact absurd h (by simp)
      · rw [if_neg hds] at h
        obtain ⟨hcap, hk⟩ : cap = r2.takeWhile Char.isDigit
            ∧ k = name.length + (r2.takeWhile Char.isDigit).length := by
          have h2 := Option.some.inj h
          exact ⟨(congrArg Prod.fst h2).symm, (congrArg Prod.snd h2).symm⟩
        subst hcap
        subst hk
        refine ⟨?_, ?_, ?_, rfl⟩
        · rw [List.take_append_eq_append_take,
            List.take_of_length_le (by omega), Nat.add_assoc,
            Nat.add_sub_cancel_left, List.take_succ_cons,
            take_length_takeWhile]
        · intro h0
          rw [h0] at hds
          exact hds rfl
        · intro c hc
          exact List.mem_takeWhile_imp hc
    · exact absurd h (by simp)
  · rw [if_neg hpre] at h
    exact absurd h (by simp)

/-- The bare-key scan finds a key that sits right after an equals sign
(as in the hidden reference `[jira_issue_key=KEY]`): no earlier match
can consume the equals sign, because the consumed text of any match is
made of the project name, a dash and digits only. -/
theorem findScanF_finds_marker (name : Str) (hne : name ≠ [])
    (hEq : '=' ∉ name) :
    ∀ (fuel : Nat) (a ds b : Str), ds ≠ [] → (∀ c ∈ ds, c.isDigit = true) →
      (a ++ ('=' :: (name ++ ('-' :: (ds ++ (']' :: b)))))).length ≤ fuel →
      ds ∈ findScanF (tryKeyRef name) fuel
        (a ++ ('=' :: (name ++ ('-' :: (ds ++ (']' :: b)))))) := by
  obtain ⟨nh, nt, rfl⟩ : ∃ nh nt, name = nh :: nt := by
    cases name with
    | nil => exact absurd rfl hne
    | cons x y => exact ⟨x, y, rfl⟩
  have hnh : nh ≠ '=' := fun hc => hEq (hc ▸ List.mem_cons_self nh nt)
  have hmatch : ∀ ds b : Str, ds ≠ [] → (∀ c ∈ ds, c.isDigit = true) →
      tryKeyRef (nh :: nt) ((nh :: nt) ++ ('-' :: (ds ++ (']' :: b))))
        = some (ds, (nh :: nt).length + ds.length) := by
    intro ds b hds hdig
    rw [tryKeyRef,
      if_pos (List.isPrefixOf_iff_prefix.mpr
        (List.prefix_append (nh :: nt) ('-' :: (ds ++ (']' :: b))))),
      List.drop_left]
    show (if ((ds ++ ']' :: b).takeWhile Char.isDigit).isEmpty then none
      else some ((ds ++ ']' :: b).takeWhile Char.isDigit,
        (nh :: nt).length + ((ds ++ ']' :: b).takeWhile Char.isDigit).length))
      = some (ds, (nh :: nt).length + ds.length)
    rw [takeWhile_all_append Char.isDigit ds ']' b hdig (by decide)]
    rw [if_neg (fun h0 => hds (List.isEmpty_iff.mp h0))]
  have htryEq : ∀ X : Str, tryKeyRef (nh :: nt) ('=' :: X) = none := by
    intro X
    rw [tryKeyRef, if_neg]
    intro hpre
    obtain ⟨t2, ht2⟩ := List.isPrefixOf_iff_prefix.mp hpre
    rw [List.cons_append] at ht2
    injection ht2 with h1 _
    exact hnh h1
  intro fuel
  induction fuel with
  | zero =>
    intro a ds b _ _ hlen
    exfalso
    simp [List.length_append] at hlen
  | succ n ih =>
    intro a ds b hds hdig hlen
    cases a with
    | nil =>
      rw [List.nil_append] at hlen ⊢
      have e : findScanF (tryKeyRef (nh :: nt)) (n + 1)
            ('=' :: ((nh :: nt) ++ ('-' :: (ds ++ (']' :: b)))))
          = match tryKeyRef (nh :: nt)
              ('=' :: ((nh :: nt) ++ ('-' :: (ds ++ (']' :: b))))) with
            | none => findScanF (tryKeyRef (nh :: nt)) n
                ((nh :: nt) ++ ('-' :: (ds ++ (']' :: b))))
            | some (cap, k) => cap :: findScanF (tryKeyRef (nh :: nt)) n
                (((nh :: nt) ++ ('-' :: (ds ++ (']' :: b)))).drop k) := rfl
      rw [e, htryEq]
      show ds ∈ findScanF (tryKeyRef (nh :: nt)) n
        ((nh :: nt) ++ ('-' :: (ds ++ (']' :: b))))
      cases n with
      | zero =>
        exfalso
        simp [List.length_append] at hlen
      | succ m =>
        have e2 : findScanF (tryKeyRef (nh :: nt)) (m + 1)
              ((nh :: nt) ++ ('-' :: (ds ++ (']' :: b))))
            = match tryKeyRef (nh :: nt)
                ((nh :: nt) ++ ('-' :: (ds ++ (']' :: b)))) with
              | none => findScanF (tryKeyRef (nh :: nt)) m
                  (nt ++ ('-' :: (ds ++ (']' :: b))))
              | some (cap, k) => cap :: findScanF (tryKeyRef (nh :: nt)) m
                  ((nt ++ ('-' :: (ds ++ (']' :: b)))).drop k) := rfl
        rw [e2, hmatch ds b hds hdig]
        show ds ∈ ds :: findScanF (tryKeyRef (nh :: nt)) m
          ((nt ++ ('-' :: (ds ++ (']' :: b)))).drop ((nh :: nt).length + ds.length))
        exact List.mem_cons_self _ _
    | cons c a2 =>
      rw [List.cons_append] at hlen ⊢
      cases htry : tryKeyRef (nh :: nt)
          (c :: (a2 ++ ('=' :: ((nh :: nt) ++ ('-' :: (ds ++ (']' :: b))))))) with
      | none =>
        have e : findScanF (tryKeyRef (nh :: nt)) (n + 1)
              (c :: (a2 ++ ('=' :: ((nh :: nt) ++ ('-' :: (ds ++ (']' :: b)))))))
            = match tryKeyRef (nh :: nt)
                (c :: (a2 ++ ('=' :: ((nh :: nt) ++ ('-' :: (ds ++ (']' :: b))))))) with
              | none => findScanF (tryKeyRef (nh :: nt)) n
                  (a2 ++ ('=' :: ((nh :: nt) ++ ('-' :: (ds ++ (']' :: b))))))
              | some (cap, k) => cap :: findScanF (tryKeyRef (nh :: nt)) n
                  ((a2 ++ ('=' :: ((nh :: nt) ++ ('-' :: (ds ++ (']' :: b)))))).drop k) := rfl
        rw [e, htry]
        show ds ∈ findScanF (tryKeyRef (nh :: nt)) n
          (a2 ++ ('=' :: ((nh :: nt) ++ ('-' :: (ds ++ (']' :: b))))))
        apply ih a2 ds b hds hdig
        simp [List.length_append] at hlen ⊢
        omega
      | some val =>
        obtain ⟨cap, k⟩ := val
        obtain ⟨htake, hcapne, hcapdig, hkeq⟩ := tryKeyRef_spec _ _ _ _ htry
        have hwithin : k ≤ a2.length := by
          by_contra hgt
          push_neg at hgt
          have hmem : '=' ∈ (c :: (a2 ++ ('=' :: ((nh :: nt)
              ++ ('-' :: (ds ++ (']' :: b))))))).take (k + 1) := by
            rw [List.take_succ_cons]
            apply List.mem_cons_of_mem
            rw [List.take_append_eq_append_take]
            apply List.mem_append.mpr
            right
            cases hq : k - a2.length with
            | zero => omega
            | succ m2 =>
              rw [List.take_succ_cons]
              exact List.mem_cons_self _ _
          rw [htake] at hmem
          rcases List.mem_append.mp hmem with h1 | h1
          · exact hEq h1
          · rcases List.mem_cons.mp h1 with h2 | h2
            · exact absurd h2 (by decide)
            · exact absurd (hcapdig '=' h2) (by decide)
        have e : findScanF (tryKeyRef (nh :: nt)) (n + 1)
              (c :: (a2 ++ ('=' :: ((nh :: nt) ++ ('-' :: (ds ++ (']' :: b)))))))
            = match tryKeyRef (nh :: nt)
                (c :: (a2 ++ ('=' :: ((nh :: nt) ++ ('-' :: (ds ++ (']' :: b))))))) with
              | none => findScanF (tryKeyRef (nh :: nt)) n
                  (a2 ++ ('=' :: ((nh :: nt) ++ ('-' :: (ds ++ (']' :: b))))))
              | some (cap, k) => cap :: findScanF (tryKeyRef (nh :: nt)) n
                  ((a2 ++ ('=' :: ((nh :: nt) ++ ('-' :: (ds ++ (']' :: b)))))).drop k) := rfl
        rw [e, htry]
        show ds ∈ cap :: findScanF (tryKeyRef (nh :: nt)) n
          ((a2 ++ ('=' :: ((nh :: nt) ++ ('-' :: (ds ++ (']' :: b)))))).drop k)
        have hdropeq : (a2 ++ ('=' :: ((nh :: nt)
              ++ ('-' :: (ds ++ (']' :: b)))))).drop k
            = a2.drop k ++ ('=' :: ((nh :: nt) ++ ('-' :: (ds ++ (']' :: b))))) :=
          List.drop_append_of_le_length hwithin
        rw [hdropeq]
        apply List.mem_cons_of_mem
        apply ih (a2.drop k) ds b hds hdig
        simp [List.length_append] at hlen ⊢
        omega

/-- A no-match region is emitted verbatim by the lookbehind-aware
substitution scanner: if the match step fires at no position strictly
inside `R`, the output starts with `R` unchanged. -/
theorem subScanPreF_emits_prefix (tm : Str → Str → Option (Str × Nat)) :
    ∀ (R rest : Str) (fuel : Nat) (pre : Str),
      (∀ pre2 t, t <:+ (R ++ rest) → rest.length < t.length → tm pre2 t = none) →
      ∃ tail, subScanPreF tm fuel pre (R ++ rest) = R ++ tail := by
  intro R
  induction R with
  | nil =>
    intro rest fuel pre _
    exact ⟨subScanPreF tm fuel pre rest, by rw [List.nil_append, List.nil_append]⟩
  | cons c R2 ih =>
    intro rest fuel pre h
    rw [List.cons_append]
    cases fuel with
    | zero => exact ⟨rest, rfl⟩
    | succ n =>
      have htm : tm pre (c :: (R2 ++ rest)) = none :=
        h pre (c :: (R2 ++ rest)) (List.suffix_refl _)
          (by simp only [List.length_append, List.length_cons]; omega)
      have e : subScanPreF tm (n + 1) pre (c :: (R2 ++ rest))
          = match tm pre (c :: (R2 ++ rest)) with
            | none => c :: subScanPreF tm n (c :: pre) (R2 ++ rest)
            | some (out, k) => out ++ subScanPreF tm n
                ((c :: (R2 ++ rest).take k).reverse ++ pre) ((R2 ++ rest).drop k) := rfl
      rw [e, htm]
      have hsub : ∀ pre2 t, t <:+ (R2 ++ rest) → rest.length < t.length →
          tm pre2 t = none := by
        intro pre2 t ht hlt
        exact h pre2 t (ht.trans (List.suffix_cons c (R2 ++ rest))) hlt
      obtain ⟨tail, htail⟩ := ih rest n (c :: pre) hsub
      refine ⟨tail, ?_⟩
      show c :: subScanPreF tm n (c :: pre) (R2 ++ rest) = c :: (R2 ++ tail)
      rw [htail]

/-- Two decompositions of one string cannot disagree in this way: a
slash-free prefix followed by a newline, and a newline-free prefix
followed by a slash. -/
theorem no_cross_decomp (D : Str) :
    ∀ (E pre1 rest1 : Str), '/' ∉ D → '\n' ∉ pre1 →
      D ++ '\n' :: E = pre1 ++ '/' :: rest1 → False := by
  induction D with
  | nil =>
    intro E pre1 rest1 _ hpre heq
    cases pre1 with
    | nil =>
      rw [List.nil_append, List.nil_append] at heq
      injection heq with h1 _
      exact absurd h1 (by decide)
    | cons p ps =>
      rw [List.nil_append, List.cons_append] at heq
      injection heq with h1 _
      exact hpre (h1 ▸ List.mem_cons_self p ps)
  | cons d D2 ih =>
    intro E pre1 rest1 hD hpre heq
    cases pre1 with
    | nil =>
      rw [List.cons_append, List.nil_append] at heq
      injection heq with h1 _
      exact hD (h1 ▸ List.mem_cons_self d D2)
    | cons p ps =>
      rw [List.cons_append, List.cons_append] at heq
      injection heq with h1 h2
      exact ih E ps rest1 (fun hm => hD (List.mem_cons_of_mem d hm))
        (fun hm => hpre (List.mem_cons_of_mem p hm)) h2

/-- A successful redirection-rewrite match begins with a newline-free
stretch (the optional protocol and the protocol-stripped base URL)
followed by a slash (the start of the `/browse/` literal). -/
theorem tryUrlRewrite_slash (redirection base name : Str)
    (hbase : '\n' ∉ stripProto base) (pre t out : Str) (k : Nat)
    (h : tryUrlRewrite redirection base name pre t = some (out, k)) :
    ∃ pre1 rest1, t = pre1 ++ ('/' :: rest1) ∧ '\n' ∉ pre1 := by
  simp only [tryUrlRewrite] at h
  split at h
  next => exact absurd h (by simp)
  next =>
    split at h
    next => exact absurd h (by simp)
    next =>
      split at h
      next => exact absurd h (by simp)
      next =>
        split at h
        next heq => exact absurd h (by simp)
        next code heq =>
          by_cases hbrowse : "/browse/".toList.isPrefixOf
              (t.drop (code + (stripProto base).length))
          case neg =>
            rw [if_neg hbrowse] at h
            exact absurd h (by simp)
          case pos =>
            obtain ⟨r2a, hr2a⟩ := List.isPrefixOf_iff_prefix.mp hbrowse
            split at heq
            next hpref =>
              -- protocol https://, code = 8
              have hcode : code = 8 := (Option.some.inj heq).symm
              subst hcode
              obtain ⟨t1, ht1⟩ := List.isPrefixOf_iff_prefix.mp hpref
              refine ⟨"https://".toList ++ stripProto base,
                "browse/".toList ++ r2a, ?_, ?_⟩
              · have hdrop : t.drop (8 + (stripProto base).length) = t1 := by
                  rw [← ht1]
                  rw [show 8 + (stripProto base).length
                    = ("https://".toList ++ stripProto base).length by
                      rw [List.length_append,
                        show ("https://".toList).length = 8 from rfl]]
                  exact List.drop_left _ _
                have hr2b : t1 = '/' :: ("browse/".toList ++ r2a) := by
                  rw [hdrop] at hr2a
                  rw [← hr2a]
                  rfl
                rw [← ht1, hr2b]
              · intro hm
                rcases List.mem_append.mp hm with h1 | h1
                · exact absurd h1 (by decide)
                · exact hbase h1
            next hnp =>
              split at heq
              next hpref =>
                -- protocol http://, code = 7
                have hcode : code = 7 := (Option.some.inj heq).symm
                subst hcode
                obtain ⟨t1, ht1⟩ := List.isPrefixOf_iff_prefix.mp hpref
                refine ⟨"http://".toList ++ stripProto base,
                  "browse/".toList ++ r2a, ?_, ?_⟩
                · have hdrop : t.drop (7 + (stripProto base).length) = t1 := by
                    rw [← ht1]
                    rw [show 7 + (stripProto base).length
                      = ("http://".toList ++ stripProto base).length by
                        rw [List.length_append,
                          show ("http://".toList).length = 7 from rfl]]
                    exact List.drop_left _ _
                  have hr2b : t1 = '/' :: ("browse/".toList ++ r2a) := by
                    rw [hdrop] at hr2a
                    rw [← hr2a]
                    rfl
                  rw [← ht1, hr2b]
                · intro hm
                  rcases List.mem_append.mp hm with h1 | h1
                  · exact absurd h1 (by decide)
                  · exact hbase h1
              next hnp2 =>
                split at heq
                next hpref =>
                  -- no protocol, code = 0
                  have hcode : code = 0 := (Option.some.inj heq).symm
                  subst hcode
                  obtain ⟨t1, ht1⟩ := List.isPrefixOf_iff_prefix.mp hpref
                  refine ⟨stripProto base, "browse/".toList ++ r2a, ?_, ?_⟩
                  · have hdrop : t.drop (0 + (stripProto base).length) = t1 := by
                      rw [← ht1]
                      rw [show 0 + (stripProto base).length
                        = (stripProto base).length by omega]
                      exact List.drop_left _ _
                    have hr2b : t1 = '/' :: ("browse/".toList ++ r2a) := by
                      rw [hdrop] at hr2a
                      rw [← hr2a]
                      rfl
                    rw [← ht1, hr2b]
                  · exact hbase
                next => exact absurd heq (by simp)

/-- The reference scan reports the key `name-ds` when the text carries it
in an `=KEY]` marker, whatever else the text contains. -/
theorem find_jira_links_marker (base name : Str) (hne : name ≠ [])
    (hEq : '=' ∉ name) (a ds b : Str) (hds : ds ≠ [])
    (hdig : ∀ c ∈ ds, c.isDigit = true) :
    (name ++ '-' :: ds) ∈ _find_jira_links base name
      (a ++ ('=' :: (name ++ ('-' :: (ds ++ (']' :: b)))))) := by
  rw [_find_jira_links, if_neg]
  · rw [List.mem_dedup]
    apply List.mem_append.mpr
    right
    apply List.mem_map.mpr
    refine ⟨ds, ?_, rfl⟩
    rw [findScan]
    exact findScanF_finds_marker name hne hEq _ a ds b hds hdig (Nat.le_refl _)
  · intro hemp
    have h0 := List.isEmpty_iff.mp hemp
    have h1 := List.append_eq_nil.mp h0
    cases h1.2

/-- The literal text that precedes the issue key in the hidden-reference
block (the header line and the opening of the key marker). -/
def hiddenRefsKeyPrefix : Str :=
  "<!-- ### Imported Jira references for easier searching -->\n<!-- [jira_issue_key".toList

set_option maxRecDepth 8000 in
/-- The body built by the Normalizer splits at the embedded key: a fixed
prefix, `=`, the key, `]`, the rest of the key line, a newline, and the
remaining hidden references, blank line and main body. -/
theorem buildHiddenRefs_decomp (key : Str) (meta : NormMeta) (mainBody : Str) :
    ∃ rest3 : Str,
      buildHiddenRefs key meta ++ "\n\n".toList ++ mainBody
        = hiddenRefsKeyPrefix ++ ('=' :: (key ++ (']' :: (" -->".toList
            ++ ('\n' :: rest3))))) := by
  refine ⟨"<!-- [jira_issue_type=".toList ++ pyNormalizeSpace meta.issueType
      ++ "] -->".toList
      ++ (if pyNormalizeSpace meta.issueType = "Epic".toList then
          "\n<!-- [jira_issue_is_epic_key=".toList ++ key ++ "] -->".toList
        else [])
      ++ (match meta.epicKey with
        | some e => "\n<!-- [jira_relationships_epic_key=".toList ++ e
            ++ "] -->".toList
        | none => [])
      ++ "\n<!-- [reporter=".toList ++ meta.reporterUsername ++ "] -->".toList
      ++ (match meta.assigneeUsername with
        | some a2 => "\n<!-- [assignee=".toList ++ a2 ++ "] -->".toList
        | none => [])
      ++ "\n<!-- [author=".toList ++ meta.reporterUsername ++ "] -->".toList
      ++ (meta.components.map
        (fun c => "\n<!-- [jira_component=".toList ++ c ++ "] -->".toList)).flatten
      ++ (meta.sourceLabels.map
        (fun l => "\n<!-- [jira_label=".toList ++ l ++ "] -->".toList)).flatten
      ++ "\n<!-- [jira_issues_importer_version=".toList ++ meta.version
      ++ "] -->".toList
      ++ "\n\n".toList ++ mainBody, ?_⟩
  simp only [buildHiddenRefs]
  simp [hiddenRefsKeyPrefix, List.append_assoc]

/-- C10: the Normalizer embeds the issue key in the hidden-reference
block at the top of the body (surviving the redirection rewrite, whose
matches contain a slash and no newline and therefore cannot start inside
the key marker), so the reference scan of the body always reports the
key; consequently the mapping record of every submitted issue built this
way lists its own key among the body references and the post-pass marks
it resolvable. -/
theorem C10_own_key_found_and_resolved
    (redirection base name ds : Str) (meta : NormMeta) (mainBody : Str)
    (hne : name ≠ []) (hupper : ∀ c ∈ name, c.isUpper = true)
    (hds : ds ≠ []) (hdig : ∀ c ∈ ds, c.isDigit = true)
    (hbase : '\n' ∉ stripProto base) :
    ((name ++ '-' :: ds) ∈ _find_jira_links base name
        (buildIssueBody redirection base name (name ++ '-' :: ds) meta mainBody))
    ∧ (∀ (start : Nat) (issues : List IssueIn) (i : IssueIn),
        i ∈ issues.drop start → i.key = name ++ '-' :: ds →
        i.body = buildIssueBody redirection base name (name ++ '-' :: ds)
          meta mainBody →
        ∃ m ∈ import_issues base name start issues,
          m.jira_issue_key = name ++ '-' :: ds
          ∧ (name ++ '-' :: ds) ∈ m.jira_links_in_body
          ∧ markedResolvableInBody m (name ++ '-' :: ds) = true
          ∧ markedResolvable m (name ++ '-' :: ds) = true) := by
  have hEq : '=' ∉ name := fun hm => absurd (hupper '=' hm) (by decide)
  obtain ⟨rest3, hdec⟩ :=
    buildHiddenRefs_decomp (name ++ '-' :: ds) meta mainBody
  have hkeyshape : ∀ B : Str,
      hiddenRefsKeyPrefix ++ ('=' :: ((name ++ '-' :: ds) ++ (']' :: B)))
        = hiddenRefsKeyPrefix ++ ('=' :: (name ++ ('-' :: (ds ++ (']' :: B))))) := by
    intro B
    simp [List.append_assoc]
  have hfound : (name ++ '-' :: ds) ∈ _find_jira_links base name
      (buildIssueBody redirection base name (name ++ '-' :: ds) meta mainBody) := by
    rw [buildIssueBody, replace_jira_urls]
    by_cases hred : redirection.isEmpty
    · rw [if_pos hred, hdec, hkeyshape]
      exact find_jira_links_marker base name hne hEq hiddenRefsKeyPrefix ds
        (" -->".toList ++ '\n' :: rest3) hds hdig
    · rw [if_neg hred]
      set A : Str := hiddenRefsKeyPrefix
        ++ ('=' :: ((name ++ '-' :: ds) ++ (']' :: " -->".toList))) with hA
      have hsA : buildHiddenRefs (name ++ '-' :: ds) meta ++ "\n\n".toList
          ++ mainBody = (A ++ ['\n']) ++ rest3 := by
        rw [hdec, hA]
        simp [List.append_assoc]
      have hnoslashA : '/' ∉ A := by
        intro hm
        rw [hA] at hm
        rcases List.mem_append.mp hm with h1 | h1
        · exact absurd h1 (by decide)
        · rcases List.mem_cons.mp h1 with h2 | h2
          · exact absurd h2 (by decide)
          · rcases List.mem_append.mp h2 with h3 | h3
            · rcases List.mem_append.mp h3 with h4 | h4
              · exact absurd (hupper '/' h4) (by decide)
              · rcases List.mem_cons.mp h4 with h5 | h5
                · exact absurd h5 (by decide)
                · exact absurd (hdig '/' h5) (by decide)
            · exact absurd h3 (by decide)
      have hregion : ∀ pre2 t, t <:+ ((A ++ ['\n']) ++ rest3) →
          rest3.length < t.length →
          tryUrlRewrite redirection base name pre2 t = none := by
        intro pre2 t ht hlt
        cases hc : tryUrlRewrite redirection base name pre2 t with
        | none => rfl
        | some p =>
          exfalso
          obtain ⟨out, k⟩ := p
          obtain ⟨pre1, rest1, hteq, hpre1⟩ :=
            tryUrlRewrite_slash redirection base name hbase pre2 t out k hc
          obtain ⟨u, hu⟩ := ht
          have htlen : u.length + t.length = A.length + 1 + rest3.length := by
            have h5 := congrArg List.length hu
            simp [List.length_append] at h5
            omega
          have hule : u.length ≤ A.length := by omega
          have ht2 : t = A.drop u.length ++ ('\n' :: rest3) := by
            have h1 : t = ((A ++ ['\n']) ++ rest3).drop u.length := by
              rw [← hu]
              rw [List.drop_left]
            rw [h1,
              show (A ++ ['\n']) ++ rest3 = A ++ ('\n' :: rest3) by
                simp [List.append_assoc]]
            exact List.drop_append_of_le_length hule
          apply no_cross_decomp (A.drop u.length) rest3 pre1 rest1
          · intro hm
            exact hnoslashA (List.drop_subset _ _ hm)
          · exact hpre1
          · rw [← ht2, hteq]
      rw [subScanPre]
      rw [hsA]
      obtain ⟨tail2, htail2⟩ := subScanPreF_emits_prefix
        (tryUrlRewrite redirection base name) (A ++ ['\n']) rest3
        ((A ++ ['\n']) ++ rest3).length [] hregion
      rw [htail2]
      rw [show (A ++ ['\n']) ++ tail2
          = hiddenRefsKeyPrefix ++ ('=' :: (name ++ ('-' :: (ds
            ++ (']' :: (" -->".toList ++ ('\n' :: tail2))))))) by
        rw [hA]; simp [List.append_assoc]]
      exact find_jira_links_marker base name hne hEq hiddenRefsKeyPrefix ds
        (" -->".toList ++ ('\n' :: tail2)) hds hdig
  refine ⟨hfound, ?_⟩
  intro start issues i hi hikey hibody
  set ids := (issues.drop start).map IssueIn.key with hids
  set M := mkIssueMapping base name i with hM
  have hkeym : (name ++ '-' :: ds) ∈ _find_jira_links base name i.body := by
    rw [hibody]
    exact hfound
  have hinbody : (name ++ '-' :: ds) ∈ M.jira_links_in_body := by
    rw [hM]
    simp only [mkIssueMapping]
    rw [List.mem_dedup]
    exact hkeym
  have hhasT : M.has_jira_links = true := by
    rw [hM]
    simp only [mkIssueMapping]
    rw [Bool.or_eq_true]
    left
    rw [Bool.not_eq_true', ← Bool.not_eq_true, List.isEmpty_iff]
    intro h0
    rw [h0] at hkeym
    cases hkeym
  have hkeyinids : ids.contains (name ++ '-' :: ds) = true := by
    apply List.elem_iff.mpr
    rw [hids, ← hikey]
    exact List.mem_map_of_mem IssueIn.key hi
  have hmemf : (name ++ '-' :: ds)
      ∈ M.jira_links_in_body.filter (fun k => ids.contains k) :=
    List.mem_filter.mpr ⟨hinbody, hkeyinids⟩
  refine ⟨resolveImported ids M, ?_, ?_, ?_, ?_, ?_⟩
  · unfold import_issues
    exact List.mem_map_of_mem _ (List.mem_map_of_mem _ hi)
  · have h1 : (resolveImported ids M).jira_issue_key = M.jira_issue_key := by
      rw [resolveImported]
      split <;> rfl
    rw [h1, hM]
    simp only [mkIssueMapping]
    exact hikey
  · rw [(resolveImported_preserves ids M).2.1]
    exact hinbody
  · rw [markedResolvableInBody, resolveImported, if_pos hhasT]
    apply List.elem_iff.mpr
    rw [List.mem_dedup]
    exact hmemf
  · rw [markedResolvable, resolveImported, if_pos hhasT]
    apply List.elem_iff.mpr
    rw [List.mem_dedup]
    exact List.mem_append.mpr (Or.inl hmemf)

/-- C10 (witness): the own-key theorem applied to a concrete issue
`INFRA-1` with the Jenkins base URL and an active redirection service. -/
theorem C10_witness :
    ("INFRA".toList ++ '-' :: "1".toList) ∈ _find_jira_links
      "https://issues.jenkins.io".toList "INFRA".toList
      (buildIssueBody "https://issue-redirect.jenkins.io".toList
        "https://issues.jenkins.io".toList "INFRA".toList
        ("INFRA".toList ++ '-' :: "1".toList)
        ⟨"Bug".toList, none, "rep".toList, none, [], [], "v1".toList⟩
        "some description".toList) :=
  (C10_own_key_found_and_resolved "https://issue-redirect.jenkins.io".toList
    "https://issues.jenkins.io".toList "INFRA".toList "1".toList
    ⟨"Bug".toList, none, "rep".toList, none, [], [], "v1".toList⟩
    "some description".toList (by decide) (by decide) (by decide) (by decide)
    (by decide)).1

end JiraImport
